import Mathlib

/-!
Shallow embedding of the asset-loading and performance-benchmark core of the
cyber-city-builder repository, together with proofs of the specification
claims about it.

The definitions mirror:
  * `src/lib/three/utils/performanceBenchmark.ts` (PerformanceBenchmark)
  * `src/lib/three/managers/assetManager.ts` (AssetManager)
JavaScript numbers are modelled as rationals, `Map<string, _>` as association
lists with JS `Map.set` semantics, and the single-threaded async control flow
as explicit state-passing step functions.
-/

namespace CyberCity

/-! ### Performance metrics (`performanceMonitor.ts`, interface PerformanceMetrics) -/

structure PerformanceMetrics where
  fps : ℚ
  frameTime : ℚ
  triangles : ℚ
  textures : ℚ
  shaders : ℚ
  calls : ℚ
  geometries : ℚ
  meshes : ℚ
  lights : ℚ
  memoryUsed : Option ℚ := none
  memoryTotal : Option ℚ := none
deriving Repr, DecidableEq

/-- JavaScript `Math.round`: round half toward positive infinity. -/
def jsRound (x : ℚ) : ℚ := ((⌊x + 1/2⌋ : ℤ) : ℚ)

/-- The reducer callback of the `metrics.reduce` call inside
`calculateAverages` (performanceBenchmark.ts lines 332-361). -/
def sumStep (acc curr : PerformanceMetrics) : PerformanceMetrics :=
  { fps := acc.fps + curr.fps
    frameTime := acc.frameTime + curr.frameTime
    triangles := acc.triangles + curr.triangles
    textures := acc.textures + curr.textures
    shaders := acc.shaders + curr.shaders
    calls := acc.calls + curr.calls
    geometries := acc.geometries + curr.geometries
    meshes := acc.meshes + curr.meshes
    lights := acc.lights + curr.lights
    memoryUsed := some (acc.memoryUsed.getD 0 + curr.memoryUsed.getD 0)
    memoryTotal := some (acc.memoryTotal.getD 0 + curr.memoryTotal.getD 0) }

/-- The `reduce` initial accumulator (performanceBenchmark.ts lines 348-360). -/
def sumInit : PerformanceMetrics :=
  { fps := 0, frameTime := 0, triangles := 0, textures := 0, shaders := 0,
    calls := 0, geometries := 0, meshes := 0, lights := 0,
    memoryUsed := some 0, memoryTotal := some 0 }

/-- `PerformanceBenchmark.calculateAverages` (performanceBenchmark.ts lines
317-384): arithmetic mean per field, integer-scale fields rounded with
`Math.round`, memory fields present iff some sample has `memoryUsed` defined;
the empty sample list short-circuits to an all-zero record. -/
def calculateAverages (metrics : List PerformanceMetrics) : PerformanceMetrics :=
  if metrics.length = 0 then
    { fps := 0, frameTime := 0, triangles := 0, textures := 0, shaders := 0,
      calls := 0, geometries := 0, meshes := 0, lights := 0 }
  else
    let sum := metrics.foldl sumStep sumInit
    let count : ℚ := (metrics.length : ℚ)
    let hasMemory := metrics.any (fun m => m.memoryUsed.isSome)
    let result : PerformanceMetrics :=
      { fps := sum.fps / count
        frameTime := sum.frameTime / count
        triangles := jsRound (sum.triangles / count)
        textures := jsRound (sum.textures / count)
        shaders := jsRound (sum.shaders / count)
        calls := jsRound (sum.calls / count)
        geometries := jsRound (sum.geometries / count)
        meshes := jsRound (sum.meshes / count)
        lights := jsRound (sum.lights / count) }
    if hasMemory then
      { result with
        memoryUsed := some (jsRound (sum.memoryUsed.getD 0 / count))
        memoryTotal := some (jsRound (sum.memoryTotal.getD 0 / count)) }
    else result

/-! ### Benchmark harness state (`performanceBenchmark.ts`, class fields) -/

structure BenchmarkResult where
  name : String
  metrics : List PerformanceMetrics
  averages : PerformanceMetrics
deriving Repr, DecidableEq

/-- A registered test: its `setup` and optional `teardown` are modelled by
their outcome (normal completion or a rejection carrying an error value). -/
structure PerformanceTest where
  name : String
  setup : Except String Unit
  teardown : Option (Except String Unit)

structure BenchmarkOptions where
  framesPerTest : ℕ
  waitForStabilization : Bool
  stabilizationTime : ℕ

/-- Mutable instance state of `PerformanceBenchmark`. -/
structure BenchState where
  currentTest : Option String
  currentMetrics : List PerformanceMetrics
  frameCount : ℕ
  results : List BenchmarkResult
  isRunning : Bool
  stabilizing : Bool

def initialBenchState : BenchState :=
  { currentTest := none, currentMetrics := [], frameCount := 0,
    results := [], isRunning := false, stabilizing := false }

/-- `PerformanceBenchmark.recordMetrics` (lines 303-310): a no-op unless a
test is running, current, and not stabilizing; otherwise pushes a copy of the
sample and increments the frame counter. -/
def recordMetrics (s : BenchState) (m : PerformanceMetrics) : BenchState :=
  if !s.isRunning || s.currentTest.isNone || s.stabilizing then s
  else
    { s with currentMetrics := s.currentMetrics ++ [m],
             frameCount := s.frameCount + 1 }

/-- The metric-collection loop of `runTest` (lines 235-260): each animation
frame polls the metrics callback and records it, until `frameCount` reaches
`framesPerTest`.  The loop is embedded with explicit fuel; `framesPerTest + 1`
units always suffice on the states `runTest` produces. -/
def collectFrames (framesPerTest : ℕ) (cb : ℕ → PerformanceMetrics) :
    ℕ → BenchState → BenchState
  | 0, s => s
  | fuel + 1, s =>
    if framesPerTest ≤ s.frameCount then s
    else collectFrames framesPerTest cb fuel (recordMetrics s (cb s.frameCount))

/-- The stabilization wait of `runTest` (lines 206-221): the `stabilizing`
flag is raised, the sampling source keeps polling `recordMetrics` (the
`polls` list) during the window, and the flag is cleared when the window
elapses. -/
def stabilizationPhase (polls : List PerformanceMetrics) (s : BenchState) :
    BenchState :=
  let s1 := { s with stabilizing := true }
  let s2 := polls.foldl recordMetrics s1
  { s2 with stabilizing := false }

/-- `PerformanceBenchmark.runTest` (lines 175-297).  Returns the instance
state together with `some e` when the test's setup or teardown rejected with
`e` (the rejection propagates; everything after it in the body is skipped). -/
def runTest (opts : BenchmarkOptions) (cb : ℕ → PerformanceMetrics)
    (polls : List PerformanceMetrics) (test : PerformanceTest) (s : BenchState) :
    BenchState × Option String :=
  let s1 := { s with currentTest := some test.name, currentMetrics := [],
                     frameCount := 0 }
  match test.setup with
  | .error e => (s1, some e)
  | .ok _ =>
    let s2 := if opts.waitForStabilization then stabilizationPhase polls s1 else s1
    let s3 := collectFrames opts.framesPerTest cb (opts.framesPerTest + 1) s2
    match test.teardown with
    | some (.error e) => (s3, some e)
    | _ =>
      let averages := calculateAverages s3.currentMetrics
      let s4 := { s3 with
        results := s3.results ++
          [{ name := test.name, metrics := s3.currentMetrics, averages := averages }],
        currentTest := none }
      (s4, none)

/-- The `for` loop of `runAll` (lines 135-149): tests run strictly in order;
a rejection inside `runTest` aborts the remaining schedule.  `cb i` and
`polls i` are the metrics stream and stabilization polls seen by the `i`-th
test. -/
def runTests (opts : BenchmarkOptions) (cb : ℕ → ℕ → PerformanceMetrics)
    (polls : ℕ → List PerformanceMetrics) :
    List PerformanceTest → ℕ → BenchState → BenchState × Option String
  | [], _, s => (s, none)
  | t :: ts, i, s =>
    match runTest opts (cb i) (polls i) t s with
    | (s1, none) => runTests opts cb polls ts (i + 1) s1
    | (s1, some e) => (s1, some e)

/-- `PerformanceBenchmark.runAll` (lines 124-167): an already-running
instance returns the current results untouched; otherwise `isRunning` is
raised, results reset, the schedule runs, and `isRunning` is cleared only on
the success path. -/
def runAll (opts : BenchmarkOptions) (cb : ℕ → ℕ → PerformanceMetrics)
    (polls : ℕ → List PerformanceMetrics) (tests : List PerformanceTest)
    (s : BenchState) : BenchState × Except String (List BenchmarkResult) :=
  if s.isRunning then (s, .ok s.results)
  else
    let s1 := { s with isRunning := true, results := [] }
    match runTests opts cb polls tests 0 s1 with
    | (s2, none) => ({ s2 with isRunning := false }, .ok s2.results)
    | (s2, some e) => (s2, .error e)

/-! ### Asset manager: preload counting model (`assetManager.ts`)

Model of the fields `totalAssets`, `loadedAssets`, `pendingLoads`, the keys
of `modelCache`, and the emitted progress events, together with the
`isPreload = true` paths of `preloadAssets` / `loadModel`.  The decoded
model objects themselves are irrelevant to batch counting and are modelled
in the separate heap machine below. -/

/-- `AssetLoadingProgress` (assetManager.ts lines 12-18). -/
structure AssetLoadingProgress where
  asset : String
  progress : ℚ
  loaded : ℕ
  total : ℕ
  isComplete : Bool
deriving Repr, DecidableEq

/-- JavaScript `Map.set`: replace the value of an existing key in place,
otherwise append the new binding. -/
def mapSet {α : Type} (l : List (String × α)) (p : String) (v : α) :
    List (String × α) :=
  if (l.lookup p).isSome then
    l.map (fun kv => if kv.1 = p then (p, v) else kv)
  else l ++ [(p, v)]

/-- Counting-relevant state of `AssetManager`: the cached model paths, the
batch counters, the per-path pending flags, and the log of progress events
handed to the loading listeners. -/
structure PreloadState where
  cachedPaths : List String
  totalAssets : ℕ
  loadedAssets : ℕ
  pendingLoads : List (String × Bool)
  events : List AssetLoadingProgress

/-- The block repeated at every terminal point of a preload load
(assetManager.ts lines 131-142, 162-173, 214-225, 250-261, 367-378,
403-414): `if (isPreload && !pendingLoads.get(path)) { loadedAssets++;
pendingLoads.set(path, true); notifyProgress(...) }`.  The failure variant
emits `loaded: 0, total: 0`, the success/cached variant the live counters. -/
def completePreload (s : PreloadState) (p : String) (failed : Bool) :
    PreloadState :=
  if !((s.pendingLoads.lookup p).getD false) then
    let loaded1 := s.loadedAssets + 1
    let ev : AssetLoadingProgress :=
      if failed then
        { asset := p, progress := 100, loaded := 0, total := 0, isComplete := true }
      else
        { asset := p, progress := 100, loaded := loaded1, total := s.totalAssets,
          isComplete := true }
    { s with loadedAssets := loaded1,
             pendingLoads := mapSet s.pendingLoads p true,
             events := s.events ++ [ev] }
  else s

/-- Outcome of the underlying decode of one asset. -/
inductive LoadOutcome
  | success
  | failure
deriving Repr, DecidableEq

/-- The counting effect of `loadModel(path, true)` (assetManager.ts lines
125-177 with the loader callbacks of lines 185-267): a cache hit completes
immediately and resolves a clone; a miss decodes, on success caches the path
and resolves the model, on failure resolves `null`.  The returned Bool
records whether the promise resolved with a non-null model. -/
def loadModelPreload (s : PreloadState) (p : String) (outcome : LoadOutcome) :
    PreloadState × Bool :=
  if p ∈ s.cachedPaths then
    (completePreload s p false, true)
  else
    match outcome with
    | .success =>
      let s1 := { s with cachedPaths := s.cachedPaths ++ [p] }
      (completePreload s1 p false, true)
    | .failure => (completePreload s p true, false)

/-- The batch prelude of `preloadAssets` (assetManager.ts lines 80-85):
reset the counters and mark every path of the batch pending-false. -/
def batchStart (s : PreloadState) (paths : List String) : PreloadState :=
  { s with totalAssets := paths.length, loadedAssets := 0,
           pendingLoads := paths.foldl (fun l p => mapSet l p false) [] }

/-- `AssetManager.preloadAssets` (assetManager.ts lines 79-108): start the
batch, drive every path to its terminal state, then emit one synthetic
`'all'` progress event built from `totalAssets`. -/
def preloadAssets (s : PreloadState) (paths : List String)
    (outcomes : String → LoadOutcome) : PreloadState × List Bool :=
  let s0 := batchStart s paths
  let step := fun (acc : PreloadState × List Bool) (p : String) =>
    let r := loadModelPreload acc.1 p (outcomes p)
    (r.1, acc.2 ++ [r.2])
  let fin := paths.foldl step (s0, [])
  let s2 := { fin.1 with events := fin.1.events ++
    [{ asset := "all", progress := 100, loaded := fin.1.totalAssets,
       total := fin.1.totalAssets, isComplete := true }] }
  (s2, fin.2)

/-- `AssetManager.getOverallProgress` (assetManager.ts lines 114-117). -/
def getOverallProgress (s : PreloadState) : ℚ :=
  if s.totalAssets = 0 then 1 else (s.loadedAssets : ℚ) / (s.totalAssets : ℚ)

/-! ### Asset manager: heap machine (`assetManager.ts`, model objects)

Model of the decoded model objects: `THREE.Object3D` values live in a heap
addressed by allocation order; `Object3D.clone()` allocates a fresh object
copying position and scale; mutating one object's transform touches only its
own cell.  `loadModel` with `isPreload = false` is the machine's `call`
event; a decode finishing is its `complete` event. -/

structure Vec3 where
  x : ℚ
  y : ℚ
  z : ℚ
deriving Repr, DecidableEq

structure ObjData where
  position : Vec3
  scale : Vec3
deriving Repr, DecidableEq

structure Heap where
  store : ℕ → Option ObjData
  next : ℕ

def Heap.alloc (h : Heap) (d : ObjData) : Heap × ℕ :=
  ({ store := fun a => if a = h.next then some d else h.store a,
     next := h.next + 1 }, h.next)

/-- `Object3D.clone()`: allocate a fresh object whose transform copies the
source's (three.js clone copies the position/scale vectors, it does not
share them). -/
def Heap.cloneObj (h : Heap) (r : ℕ) : Heap × ℕ :=
  h.alloc ((h.store r).getD { position := ⟨0, 0, 0⟩, scale := ⟨1, 1, 1⟩ })

/-- `object.position.set(...)` on the object at address `r`. -/
def Heap.setPosition (h : Heap) (r : ℕ) (v : Vec3) : Heap :=
  { h with store := fun a =>
      if a = r then (h.store a).map (fun d => { d with position := v })
      else h.store a }

/-- `object.scale.set(...)` on the object at address `r`. -/
def Heap.setScale (h : Heap) (r : ℕ) (v : Vec3) : Heap :=
  { h with store := fun a =>
      if a = r then (h.store a).map (fun d => { d with scale := v })
      else h.store a }

/-- Object-level state of `AssetManager`: the heap, `modelCache` as
path → address, and the log of underlying decode operations started. -/
structure AMState where
  heap : Heap
  modelCache : List (String × ℕ)
  decodeLog : List String

def emptyAM : AMState :=
  { heap := { store := fun _ => none, next := 0 }, modelCache := [], decodeLog := [] }

/-- Events of the interleaved execution: `call p` is the synchronous entry
of a `loadModel(p)` invocation (cache check, and on a miss the loader is
invoked, i.e. an underlying decode begins); `complete p d` is a decode for
`p` finishing with decoded object data `d`. -/
inductive AMEvent
  | call (p : String)
  | complete (p : String) (d : ObjData)

/-- One step of the `AssetManager` machine (assetManager.ts lines 125-157
for `call`, lines 191-227 for `complete`): a cache hit resolves
`cachedModel.clone()`; a miss starts a decode (no in-flight tracking exists
in the class, so every missing-path call starts its own); a completion
allocates the decoded model, stores `model.clone()` in the cache and
resolves the model itself.  The second component is the address the
`loadModel` promise resolves with, when this step resolves one. -/
def amStep (s : AMState) (e : AMEvent) : AMState × Option ℕ :=
  match e with
  | .call p =>
    match s.modelCache.lookup p with
    | some r =>
      let c := s.heap.cloneObj r
      ({ s with heap := c.1 }, some c.2)
    | none =>
      ({ s with decodeLog := s.decodeLog ++ [p] }, none)
  | .complete p d =>
    let a1 := s.heap.alloc d
    let c1 := (a1.1).cloneObj a1.2
    ({ s with heap := c1.1, modelCache := mapSet s.modelCache p c1.2 }, some a1.2)

/-- Run a sequence of events in order (the JS runtime is single-threaded,
so an interleaved execution is a sequence of atomic steps), collecting the
addresses resolved along the way. -/
def amRun : AMState → List AMEvent → AMState × List (Option ℕ)
  | s, [] => (s, [])
  | s, e :: es =>
    let r := amStep s e
    let t := amRun r.1 es
    (t.1, r.2 :: t.2)

/-! ### OBJ material fallback (`assetManager.ts`, loadObjModel) -/

structure Material where
  color : ℕ
  roughness : ℚ
  metalness : ℚ
deriving Repr, DecidableEq

/-- The default neutral material of assetManager.ts lines 354-358. -/
def defaultObjMaterial : Material :=
  { color := 0x808080, roughness := 8/10, metalness := 2/10 }

/-- `node.material` of a mesh: absent (`null`/`undefined`), a single
material, or an array of materials. -/
inductive MaterialSlot
  | noMaterial
  | single (m : Material)
  | array (ms : List Material)
deriving Repr, DecidableEq

structure MeshNode where
  material : MaterialSlot
deriving Repr, DecidableEq

/-- Outcome of the `fetch(mtlPath, { method: 'HEAD' })` probe: a response
with its `ok` flag, or the fetch throwing. -/
inductive ProbeResult
  | ok (respOk : Bool)
  | fetchError
deriving Repr, DecidableEq

/-- Outcome of the `MTLLoader.load` decode, attempted only when the probe
succeeded. -/
inductive MtlDecode
  | success
  | failure
deriving Repr, DecidableEq

/-- The MTL phase of `loadObjModel` (assetManager.ts lines 279-333):
`hasMtl` is set from the probe (a fetch error sets it false); when `hasMtl`
holds the MTL decode is attempted, and a decode rejection is swallowed by
the outer `catch` ("Continue without MTL") WITHOUT resetting `hasMtl`.
Returns `(hasMtl, materialsApplied)`. -/
def mtlPhase (probe : ProbeResult) (decode : MtlDecode) : Bool × Bool :=
  let hasMtl := match probe with
    | .fetchError => false
    | .ok b => b
  if hasMtl then
    match decode with
    | .success => (hasMtl, true)
    | .failure => (hasMtl, false)
  else (hasMtl, false)

/-- The per-mesh material fallback inside the `traverse` of `loadObjModel`
(assetManager.ts lines 347-361): `if (!hasMtl && (!node.material ||
Array.isArray(node.material) && node.material.length === 0))` assign the
default neutral material. -/
def applyDefaultMaterials (hasMtl : Bool) (meshes : List MeshNode) :
    List MeshNode :=
  meshes.map (fun node =>
    if !hasMtl &&
        (node.material = MaterialSlot.noMaterial ||
         node.material = MaterialSlot.array []) then
      { node with material := MaterialSlot.single defaultObjMaterial }
    else node)

/-- Material outcome of `loadObjModel` on a successfully decoded OBJ whose
meshes are `meshes`, given the probe and MTL-decode outcomes. -/
def loadObjModelMeshes (probe : ProbeResult) (decode : MtlDecode)
    (meshes : List MeshNode) : List MeshNode :=
  applyDefaultMaterials (mtlPhase probe decode).1 meshes

/-- Number of pending-flag entries already set `true` — the paths of the
current batch that have reached a terminal state. -/
def trueCount (l : List (String × Bool)) : ℕ :=
  (l.filter (fun kv => kv.2)).length

/-! ### Concrete sample data for instantiating the claims -/

/-- A synthetic metrics sample with the given fps and triangle count. -/
def sampleMetrics (f t : ℚ) : PerformanceMetrics :=
  { fps := f, frameTime := 0, triangles := t, textures := 0, shaders := 0,
    calls := 0, geometries := 0, meshes := 0, lights := 0 }

/-! ### Helper lemmas -/

lemma lookup_cons {α : Type} (p q : String) (w : α) (l : List (String × α)) :
    ((q, w) :: l).lookup p = if p = q then some w else l.lookup p := by
  by_cases h : p = q
  · subst h; simp [List.lookup]
  · simp [List.lookup, beq_eq_false_iff_ne.mpr h, h]

lemma mapSet_lookup_self {α : Type} (l : List (String × α)) (p : String) (v : α) :
    (mapSet l p v).lookup p = some v := by
  induction l with
  | nil => simp [mapSet, List.lookup]
  | cons kv l ih =>
    obtain ⟨q, w⟩ := kv
    by_cases hpq : p = q
    · subst hpq
      have hsome : (((p, w) :: l).lookup p).isSome := by simp [lookup_cons]
      simp [mapSet, hsome, lookup_cons]
    · have hcond : (((q, w) :: l).lookup p) = l.lookup p := by
        simp [lookup_cons, hpq]
      by_cases hl : (l.lookup p).isSome
      · have hmap : mapSet l p v
            = l.map (fun kv => if kv.1 = p then (p, v) else kv) := by
          simp [mapSet, hl]
        have hq' : ¬ (q = p) := fun h => hpq h.symm
        simp only [mapSet, hcond, hl, if_true, List.map_cons, hq', if_false]
        rw [lookup_cons, if_neg hpq, ← hmap]
        exact ih
      · have hmap : mapSet l p v = l ++ [(p, v)] := by simp [mapSet, hl]
        have hmap2 : mapSet ((q, w) :: l) p v = (q, w) :: (l ++ [(p, v)]) := by
          simp [mapSet, hcond, hl]
        rw [hmap2, lookup_cons, if_neg hpq, ← hmap]
        exact ih

lemma amRun_append (s : AMState) (es1 es2 : List AMEvent) :
    amRun s (es1 ++ es2)
      = ((amRun (amRun s es1).1 es2).1,
         (amRun s es1).2 ++ (amRun (amRun s es1).1 es2).2) := by
  induction es1 generalizing s with
  | nil => simp [amRun]
  | cons e es ih =>
    rw [List.cons_append]
    simp only [amRun]
    rw [ih]
    simp

lemma amStep_call_miss (s : AMState) (p : String)
    (h : s.modelCache.lookup p = none) :
    amStep s (AMEvent.call p)
      = ({ s with decodeLog := s.decodeLog ++ [p] }, none) := by
  simp [amStep, h]

lemma amRun_replicate_call (p : String) :
    ∀ (n : ℕ) (s : AMState), s.modelCache.lookup p = none →
      (amRun s (List.replicate n (AMEvent.call p))).1.modelCache = s.modelCache ∧
      (amRun s (List.replicate n (AMEvent.call p))).1.decodeLog
        = s.decodeLog ++ List.replicate n p := by
  intro n
  induction n with
  | zero => intro s h; simp [amRun]
  | succ n ih =>
    intro s h
    rw [List.replicate_succ]
    simp only [amRun, amStep_call_miss s p h]
    have h' : ({ s with decodeLog := s.decodeLog ++ [p] } : AMState).modelCache.lookup p
        = none := h
    obtain ⟨hc, hd⟩ := ih { s with decodeLog := s.decodeLog ++ [p] } h'
    refine ⟨hc, ?_⟩
    rw [hd]
    simp [List.replicate_succ]

lemma foldl_sumStep (ms : List PerformanceMetrics) :
    ∀ (acc : PerformanceMetrics) (a b : ℚ),
      acc.memoryUsed = some a → acc.memoryTotal = some b →
      ms.foldl sumStep acc =
        { fps := acc.fps + (ms.map PerformanceMetrics.fps).sum,
          frameTime := acc.frameTime + (ms.map PerformanceMetrics.frameTime).sum,
          triangles := acc.triangles + (ms.map PerformanceMetrics.triangles).sum,
          textures := acc.textures + (ms.map PerformanceMetrics.textures).sum,
          shaders := acc.shaders + (ms.map PerformanceMetrics.shaders).sum,
          calls := acc.calls + (ms.map PerformanceMetrics.calls).sum,
          geometries := acc.geometries + (ms.map PerformanceMetrics.geometries).sum,
          meshes := acc.meshes + (ms.map PerformanceMetrics.meshes).sum,
          lights := acc.lights + (ms.map PerformanceMetrics.lights).sum,
          memoryUsed := some (a + (ms.map (fun m => m.memoryUsed.getD 0)).sum),
          memoryTotal := some (b + (ms.map (fun m => m.memoryTotal.getD 0)).sum) } := by
  induction ms with
  | nil =>
    intro acc a b ha hb
    obtain ⟨f, ft, tr, tx, sh, ca, ge, me, li, mu, mt⟩ := acc
    simp_all
  | cons m ms ih =>
    intro acc a b ha hb
    rw [List.foldl_cons,
      ih (sumStep acc m) (a + m.memoryUsed.getD 0) (b + m.memoryTotal.getD 0)
        (by simp [sumStep, ha]) (by simp [sumStep, hb])]
    simp [sumStep, add_assoc]

lemma calculateAverages_pos (ms : List PerformanceMetrics) (h : ms ≠ []) :
    calculateAverages ms =
      (if ms.any (fun m => m.memoryUsed.isSome) then
        { fps := (ms.map PerformanceMetrics.fps).sum / (ms.length : ℚ)
          frameTime := (ms.map PerformanceMetrics.frameTime).sum / (ms.length : ℚ)
          triangles := jsRound ((ms.map PerformanceMetrics.triangles).sum / (ms.length : ℚ))
          textures := jsRound ((ms.map PerformanceMetrics.textures).sum / (ms.length : ℚ))
          shaders := jsRound ((ms.map PerformanceMetrics.shaders).sum / (ms.length : ℚ))
          calls := jsRound ((ms.map PerformanceMetrics.calls).sum / (ms.length : ℚ))
          geometries := jsRound ((ms.map PerformanceMetrics.geometries).sum / (ms.length : ℚ))
          meshes := jsRound ((ms.map PerformanceMetrics.meshes).sum / (ms.length : ℚ))
          lights := jsRound ((ms.map PerformanceMetrics.lights).sum / (ms.length : ℚ))
          memoryUsed := some (jsRound
            ((ms.map (fun m => m.memoryUsed.getD 0)).sum / (ms.length : ℚ)))
          memoryTotal := some (jsRound
            ((ms.map (fun m => m.memoryTotal.getD 0)).sum / (ms.length : ℚ))) }
      else
        { fps := (ms.map PerformanceMetrics.fps).sum / (ms.length : ℚ)
          frameTime := (ms.map PerformanceMetrics.frameTime).sum / (ms.length : ℚ)
          triangles := jsRound ((ms.map PerformanceMetrics.triangles).sum / (ms.length : ℚ))
          textures := jsRound ((ms.map PerformanceMetrics.textures).sum / (ms.length : ℚ))
          shaders := jsRound ((ms.map PerformanceMetrics.shaders).sum / (ms.length : ℚ))
          calls := jsRound ((ms.map PerformanceMetrics.calls).sum / (ms.length : ℚ))
          geometries := jsRound ((ms.map PerformanceMetrics.geometries).sum / (ms.length : ℚ))
          meshes := jsRound ((ms.map PerformanceMetrics.meshes).sum / (ms.length : ℚ))
          lights := jsRound ((ms.map PerformanceMetrics.lights).sum / (ms.length : ℚ))
          memoryUsed := none
          memoryTotal := none }) := by
  have hlen : ¬ ms.length = 0 := by simpa using h
  unfold calculateAverages
  rw [if_neg hlen, foldl_sumStep ms sumInit 0 0 rfl rfl]
  by_cases hm : ms.any (fun m => m.memoryUsed.isSome) <;>
    simp [hm, sumInit, zero_add]

lemma recordMetrics_stab (t : BenchState) (m : PerformanceMetrics)
    (h : t.stabilizing = true) : recordMetrics t m = t := by
  simp [recordMetrics, h]

lemma foldl_recordMetrics_stab (polls : List PerformanceMetrics) :
    ∀ (t : BenchState), t.stabilizing = true → polls.foldl recordMetrics t = t := by
  induction polls with
  | nil => intro t _; rfl
  | cons m polls ih =>
    intro t h
    rw [List.foldl_cons, recordMetrics_stab t m h]
    exact ih t h

lemma stabilizationPhase_eq (polls : List PerformanceMetrics) (t : BenchState) :
    stabilizationPhase polls t = { t with stabilizing := false } := by
  have h := foldl_recordMetrics_stab polls { t with stabilizing := true } rfl
  simp only [stabilizationPhase, h]

lemma recordMetrics_run (s : BenchState) (m : PerformanceMetrics)
    (hrun : s.isRunning = true) (hct : s.currentTest.isSome = true)
    (hstab : s.stabilizing = false) :
    recordMetrics s m
      = { s with currentMetrics := s.currentMetrics ++ [m],
                 frameCount := s.frameCount + 1 } := by
  obtain ⟨a, ha⟩ := Option.isSome_iff_exists.mp hct
  simp [recordMetrics, hrun, ha, hstab]

lemma collectFrames_spec (fp : ℕ) (cb : ℕ → PerformanceMetrics) :
    ∀ (fuel : ℕ) (s : BenchState), s.isRunning = true →
      s.currentTest.isSome = true → s.stabilizing = false →
      fp - s.frameCount ≤ fuel →
      ∃ ms : List PerformanceMetrics, ms.length = fp - s.frameCount ∧
        collectFrames fp cb fuel s
          = { s with currentMetrics := s.currentMetrics ++ ms,
                     frameCount := s.frameCount + (fp - s.frameCount) } := by
  intro fuel
  induction fuel with
  | zero =>
    intro s hrun hct hstab hfuel
    have h0 : fp - s.frameCount = 0 := Nat.le_zero.mp hfuel
    refine ⟨[], by simp [h0], ?_⟩
    rw [h0]
    simp [collectFrames]
  | succ fuel ih =>
    intro s hrun hct hstab hfuel
    obtain ⟨ct, cm, fc, res, run, stab⟩ := s
    have hrun1 : run = true := hrun
    have hstab1 : stab = false := hstab
    subst hrun1
    subst hstab1
    obtain ⟨nm, rfl⟩ := Option.isSome_iff_exists.mp hct
    have hfuel1 : fp - fc ≤ fuel + 1 := hfuel
    by_cases hge : fp ≤ fc
    · have h0 : fp - fc = 0 := Nat.sub_eq_zero_of_le hge
      refine ⟨[], by simp [h0], ?_⟩
      have hret : collectFrames fp cb (fuel + 1)
          ⟨some nm, cm, fc, res, true, false⟩
          = ⟨some nm, cm, fc, res, true, false⟩ := by
        simp [collectFrames, hge]
      rw [hret]
      simp [h0]
    · have hlt : fc < fp := Nat.lt_of_not_le hge
      have hstep : recordMetrics ⟨some nm, cm, fc, res, true, false⟩ (cb fc)
          = ⟨some nm, cm ++ [cb fc], fc + 1, res, true, false⟩ := by
        simp [recordMetrics]
      have hunfold : collectFrames fp cb (fuel + 1)
          ⟨some nm, cm, fc, res, true, false⟩
          = collectFrames fp cb fuel
              (recordMetrics ⟨some nm, cm, fc, res, true, false⟩ (cb fc)) := by
        simp [collectFrames, hge]
      obtain ⟨ms, hlen, hres⟩ := ih ⟨some nm, cm ++ [cb fc], fc + 1, res, true, false⟩
        rfl rfl rfl (by show fp - (fc + 1) ≤ fuel; omega)
      have hlen1 : ms.length = fp - (fc + 1) := hlen
      have hres1 : collectFrames fp cb fuel
          ⟨some nm, cm ++ [cb fc], fc + 1, res, true, false⟩
          = ⟨some nm, (cm ++ [cb fc]) ++ ms, (fc + 1) + (fp - (fc + 1)), res,
             true, false⟩ := hres
      refine ⟨cb fc :: ms, ?_, ?_⟩
      · show ms.length + 1 = fp - fc
        omega
      · have hcm : (cm ++ [cb fc]) ++ ms = cm ++ (cb fc :: ms) := by simp
        have hfc : (fc + 1) + (fp - (fc + 1)) = fc + (fp - fc) := by omega
        rw [hunfold, hstep, hres1, hcm, hfc]

lemma recordMetrics_results (s : BenchState) (m : PerformanceMetrics) :
    (recordMetrics s m).results = s.results := by
  unfold recordMetrics
  split <;> rfl

lemma recordMetrics_isRunning (s : BenchState) (m : PerformanceMetrics) :
    (recordMetrics s m).isRunning = s.isRunning := by
  unfold recordMetrics
  split <;> rfl

lemma collectFrames_results (fp : ℕ) (cb : ℕ → PerformanceMetrics) :
    ∀ (fuel : ℕ) (s : BenchState), (collectFrames fp cb fuel s).results = s.results := by
  intro fuel
  induction fuel with
  | zero => intro s; rfl
  | succ fuel ih =>
    intro s
    by_cases h : fp ≤ s.frameCount
    · simp [collectFrames, h]
    · rw [show collectFrames fp cb (fuel + 1) s
          = collectFrames fp cb fuel (recordMetrics s (cb s.frameCount)) from by
        simp [collectFrames, h]]
      rw [ih, recordMetrics_results]

lemma collectFrames_isRunning (fp : ℕ) (cb : ℕ → PerformanceMetrics) :
    ∀ (fuel : ℕ) (s : BenchState),
      (collectFrames fp cb fuel s).isRunning = s.isRunning := by
  intro fuel
  induction fuel with
  | zero => intro s; rfl
  | succ fuel ih =>
    intro s
    by_cases h : fp ≤ s.frameCount
    · simp [collectFrames, h]
    · rw [show collectFrames fp cb (fuel + 1) s
          = collectFrames fp cb fuel (recordMetrics s (cb s.frameCount)) from by
        simp [collectFrames, h]]
      rw [ih, recordMetrics_isRunning]

lemma phase3_results (opts : BenchmarkOptions) (cb : ℕ → PerformanceMetrics)
    (polls : List PerformanceMetrics) (s0 : BenchState) :
    (collectFrames opts.framesPerTest cb (opts.framesPerTest + 1)
      (if opts.waitForStabilization then stabilizationPhase polls s0 else s0)).results
      = s0.results := by
  by_cases hw : opts.waitForStabilization <;>
    simp [hw, collectFrames_results, stabilizationPhase_eq]

lemma phase3_isRunning (opts : BenchmarkOptions) (cb : ℕ → PerformanceMetrics)
    (polls : List PerformanceMetrics) (s0 : BenchState) :
    (collectFrames opts.framesPerTest cb (opts.framesPerTest + 1)
      (if opts.waitForStabilization then stabilizationPhase polls s0 else s0)).isRunning
      = s0.isRunning := by
  by_cases hw : opts.waitForStabilization <;>
    simp [hw, collectFrames_isRunning, stabilizationPhase_eq]

lemma runTest_setup_error (opts : BenchmarkOptions) (cb : ℕ → PerformanceMetrics)
    (polls : List PerformanceMetrics) (t : PerformanceTest) (s : BenchState)
    (e : String) (h : t.setup = Except.error e) :
    runTest opts cb polls t s
      = ({ s with currentTest := some t.name, currentMetrics := [],
                  frameCount := 0 }, some e) := by
  obtain ⟨tname, tsetup, ttd⟩ := t
  have h1 : tsetup = Except.error e := h
  subst h1
  rfl

lemma runTest_isRunning (opts : BenchmarkOptions) (cb : ℕ → PerformanceMetrics)
    (polls : List PerformanceMetrics) (t : PerformanceTest) (s : BenchState) :
    (runTest opts cb polls t s).1.isRunning = s.isRunning := by
  obtain ⟨tname, tsetup, ttd⟩ := t
  cases tsetup with
  | error e => rfl
  | ok u =>
    cases u
    rcases ttd with _ | td
    · exact phase3_isRunning opts cb polls _
    · cases td with
      | error e => exact phase3_isRunning opts cb polls _
      | ok v =>
        cases v
        exact phase3_isRunning opts cb polls _

lemma runTest_success_parts (opts : BenchmarkOptions) (cb : ℕ → PerformanceMetrics)
    (polls : List PerformanceMetrics) (tname : String)
    (ttd : Option (Except String Unit)) (s : BenchState)
    (htd : ttd = none ∨ ttd = some (Except.ok ())) :
    (runTest opts cb polls ⟨tname, Except.ok (), ttd⟩ s).2 = none ∧
    (runTest opts cb polls ⟨tname, Except.ok (), ttd⟩ s).1.results.length
      = s.results.length + 1 := by
  rcases htd with h | h <;> subst h <;>
    refine ⟨rfl, ?_⟩ <;>
    · show ((collectFrames opts.framesPerTest cb (opts.framesPerTest + 1)
          (if opts.waitForStabilization then
            stabilizationPhase polls
              { s with currentTest := some tname, currentMetrics := [], frameCount := 0 }
          else
            { s with currentTest := some tname, currentMetrics := [],
                     frameCount := 0 })).results ++ [_]).length = s.results.length + 1
      rw [List.length_append, phase3_results]
      rfl

lemma runTests_isRunning (opts : BenchmarkOptions) (cb : ℕ → ℕ → PerformanceMetrics)
    (polls : ℕ → List PerformanceMetrics) :
    ∀ (ts : List PerformanceTest) (i : ℕ) (s : BenchState),
      ((runTests opts cb polls ts i s).1).isRunning = s.isRunning := by
  intro ts
  induction ts with
  | nil => intro i s; rfl
  | cons t ts ih =>
    intro i s
    rcases hpair : runTest opts (cb i) (polls i) t s with ⟨s1, snd⟩
    have hrun : s1.isRunning = s.isRunning := by
      have h := runTest_isRunning opts (cb i) (polls i) t s
      rw [hpair] at h
      exact h
    cases snd with
    | none =>
      have hstep : runTests opts cb polls (t :: ts) i s
          = runTests opts cb polls ts (i + 1) s1 := by
        simp only [runTests]
        rw [hpair]
      rw [hstep, ih, hrun]
    | some e =>
      have hstep : runTests opts cb polls (t :: ts) i s = (s1, some e) := by
        simp only [runTests]
        rw [hpair]
      rw [hstep]
      exact hrun

lemma runTests_abort (opts : BenchmarkOptions) (cb : ℕ → ℕ → PerformanceMetrics)
    (polls : ℕ → List PerformanceMetrics) (fail : PerformanceTest) (e : String)
    (hfail : fail.setup = Except.error e) (post : List PerformanceTest) :
    ∀ (pre : List PerformanceTest) (i : ℕ) (s : BenchState),
      (∀ t ∈ pre, t.setup = Except.ok () ∧
        (t.teardown = none ∨ t.teardown = some (Except.ok ()))) →
      (runTests opts cb polls (pre ++ fail :: post) i s).2 = some e ∧
      (runTests opts cb polls (pre ++ fail :: post) i s).1.results.length
        = s.results.length + pre.length ∧
      (∀ post', runTests opts cb polls (pre ++ fail :: post') i s
          = runTests opts cb polls (pre ++ fail :: post) i s) := by
  intro pre
  induction pre with
  | nil =>
    intro i s _
    have hstep : ∀ q, runTests opts cb polls ([] ++ fail :: q) i s
        = ({ s with currentTest := some fail.name, currentMetrics := [],
                    frameCount := 0 }, some e) := by
      intro q
      simp only [List.nil_append, runTests]
      rw [runTest_setup_error opts (cb i) (polls i) fail s e hfail]
    rw [hstep post]
    exact ⟨rfl, by simp, fun post' => by rw [hstep post']⟩
  | cons t pre ih =>
    intro i s hpre
    obtain ⟨hset, htd⟩ := hpre t (List.mem_cons_self t pre)
    obtain ⟨tname, tsetup, ttd⟩ := t
    have hset1 : tsetup = Except.ok () := hset
    subst hset1
    have hparts := runTest_success_parts opts (cb i) (polls i) tname ttd s htd
    rcases hpair : runTest opts (cb i) (polls i) ⟨tname, Except.ok (), ttd⟩ s
      with ⟨s1, snd⟩
    rw [hpair] at hparts
    have hsnd : snd = none := hparts.1
    subst hsnd
    have hlen : s1.results.length = s.results.length + 1 := hparts.2
    have hstep : ∀ q, runTests opts cb polls
        ((⟨tname, Except.ok (), ttd⟩ :: pre) ++ fail :: q) i s
        = runTests opts cb polls (pre ++ fail :: q) (i + 1) s1 := by
      intro q
      rw [List.cons_append]
      simp only [runTests]
      rw [hpair]
    obtain ⟨h1, h2, h3⟩ := ih (i + 1) s1
      (fun t' ht' => hpre t' (List.mem_cons_of_mem _ ht'))
    refine ⟨?_, ?_, ?_⟩
    · rw [hstep post]; exact h1
    · rw [hstep post, h2, hlen, List.length_cons]; omega
    · intro post'
      rw [hstep post', hstep post, h3 post']

lemma lookup_isSome_of_mem_keys {α : Type} (p : String) :
    ∀ (l : List (String × α)), p ∈ l.map Prod.fst → (l.lookup p).isSome := by
  intro l
  induction l with
  | nil => intro h; simp at h
  | cons kv l ih =>
    intro h
    obtain ⟨q, w⟩ := kv
    rw [lookup_cons]
    by_cases hpq : p = q
    · simp [hpq]
    · rw [if_neg hpq]
      apply ih
      simp only [List.map_cons, List.mem_cons] at h
      rcases h with h | h
      · exact absurd h hpq
      · exact h

lemma lookup_none_of_not_mem_keys {α : Type} (p : String) :
    ∀ (l : List (String × α)), p ∉ l.map Prod.fst → l.lookup p = none := by
  intro l
  induction l with
  | nil => intro _; rfl
  | cons kv l ih =>
    intro h
    obtain ⟨q, w⟩ := kv
    simp only [List.map_cons, List.mem_cons] at h
    push_neg at h
    rw [lookup_cons, if_neg h.1]
    exact ih h.2

lemma map_update_id {α : Type} (p : String) (v : α) :
    ∀ (l : List (String × α)), p ∉ l.map Prod.fst →
      l.map (fun kv => if kv.1 = p then (p, v) else kv) = l := by
  intro l
  induction l with
  | nil => intro _; rfl
  | cons kv l ih =>
    intro h
    obtain ⟨q, w⟩ := kv
    simp only [List.map_cons, List.mem_cons] at h
    push_neg at h
    have hq : ¬ (q = p) := fun he => h.1 he.symm
    simp only [List.map_cons, hq, if_false]
    rw [ih h.2]

lemma keys_map_update {α : Type} (p : String) (v : α) :
    ∀ (l : List (String × α)),
      (l.map (fun kv => if kv.1 = p then (p, v) else kv)).map Prod.fst
        = l.map Prod.fst := by
  intro l
  induction l with
  | nil => rfl
  | cons kv l ih =>
    simp only [List.map_cons, ih]
    by_cases h : kv.1 = p
    · simp [h]
    · simp [h]

lemma mapSet_keys {α : Type} (l : List (String × α)) (p : String) (v : α)
    (h : (l.lookup p).isSome) : (mapSet l p v).map Prod.fst = l.map Prod.fst := by
  simp only [mapSet, h, if_true]
  exact keys_map_update p v l

lemma trueCount_cons (kv : String × Bool) (l : List (String × Bool)) :
    trueCount (kv :: l) = (if kv.2 then 1 else 0) + trueCount l := by
  obtain ⟨q, w⟩ := kv
  cases w
  · simp [trueCount, List.filter]
  · simp [trueCount, List.filter]
    omega

lemma trueCount_update_true (p : String) :
    ∀ (l : List (String × Bool)), (l.map Prod.fst).Nodup →
      l.lookup p = some false →
      trueCount (l.map (fun kv => if kv.1 = p then (p, true) else kv))
        = trueCount l + 1 := by
  intro l
  induction l with
  | nil => intro _ h; simp [List.lookup] at h
  | cons kv l ih =>
    intro hnd hl
    obtain ⟨q, w⟩ := kv
    rw [lookup_cons] at hl
    simp only [List.map_cons, List.nodup_cons] at hnd
    by_cases hpq : p = q
    · rw [if_pos hpq] at hl
      have hw : w = false := Option.some.inj hl
      subst hw
      subst hpq
      simp only [List.map_cons, if_true]
      rw [map_update_id p true l hnd.1, trueCount_cons, trueCount_cons]
      simp
      omega
    · rw [if_neg hpq] at hl
      have hq : ¬ (q = p) := fun he => hpq he.symm
      simp only [List.map_cons]
      rw [if_neg hq]
      rw [trueCount_cons, trueCount_cons, ih hnd.2 hl]
      omega

lemma completePreload_inv (t : PreloadState) (p : String) (failed : Bool)
    (hk : p ∈ t.pendingLoads.map Prod.fst)
    (hnd : (t.pendingLoads.map Prod.fst).Nodup)
    (hinv : t.loadedAssets = trueCount t.pendingLoads) :
    (completePreload t p failed).loadedAssets
      = trueCount (completePreload t p failed).pendingLoads ∧
    (completePreload t p failed).pendingLoads.map Prod.fst
      = t.pendingLoads.map Prod.fst ∧
    (completePreload t p failed).totalAssets = t.totalAssets := by
  have hsome : (t.pendingLoads.lookup p).isSome :=
    lookup_isSome_of_mem_keys p t.pendingLoads hk
  obtain ⟨bv, hbv⟩ := Option.isSome_iff_exists.mp hsome
  cases bv with
  | false =>
    have hset : mapSet t.pendingLoads p true
        = t.pendingLoads.map (fun kv => if kv.1 = p then (p, true) else kv) := by
      simp [mapSet, hsome]
    have hcp : completePreload t p failed
        = { t with loadedAssets := t.loadedAssets + 1,
                   pendingLoads := mapSet t.pendingLoads p true,
                   events := t.events ++
                     [if failed then
                        { asset := p, progress := 100, loaded := 0, total := 0,
                          isComplete := true }
                      else
                        { asset := p, progress := 100,
                          loaded := t.loadedAssets + 1, total := t.totalAssets,
                          isComplete := true }] } := by
      unfold completePreload
      rw [hbv]
      rfl
    rw [hcp]
    refine ⟨?_, ?_, rfl⟩
    · show t.loadedAssets + 1 = trueCount (mapSet t.pendingLoads p true)
      rw [hset, trueCount_update_true p t.pendingLoads hnd hbv, hinv]
    · show (mapSet t.pendingLoads p true).map Prod.fst
          = t.pendingLoads.map Prod.fst
      rw [hset]
      exact keys_map_update p true t.pendingLoads
  | true =>
    have hid : completePreload t p failed = t := by
      unfold completePreload
      rw [hbv]
      rfl
    rw [hid]
    exact ⟨hinv, rfl, rfl⟩

lemma loadModelPreload_inv (t : PreloadState) (p : String) (o : LoadOutcome)
    (hk : p ∈ t.pendingLoads.map Prod.fst)
    (hnd : (t.pendingLoads.map Prod.fst).Nodup)
    (hinv : t.loadedAssets = trueCount t.pendingLoads) :
    ((loadModelPreload t p o).1).loadedAssets
      = trueCount ((loadModelPreload t p o).1).pendingLoads ∧
    ((loadModelPreload t p o).1).pendingLoads.map Prod.fst
      = t.pendingLoads.map Prod.fst ∧
    ((loadModelPreload t p o).1).totalAssets = t.totalAssets := by
  unfold loadModelPreload
  by_cases hc : p ∈ t.cachedPaths
  · simp only [hc, if_true]
    exact completePreload_inv t p false hk hnd hinv
  · simp only [hc, if_false]
    cases o with
    | success =>
      exact completePreload_inv { t with cachedPaths := t.cachedPaths ++ [p] }
        p false hk hnd hinv
    | failure =>
      exact completePreload_inv t p true hk hnd hinv

lemma lookup_append_of_none {α : Type} (p : String) :
    ∀ (l1 l2 : List (String × α)), l1.lookup p = none →
      (l1 ++ l2).lookup p = l2.lookup p := by
  intro l1
  induction l1 with
  | nil => intro l2 _; rfl
  | cons kv l ih =>
    intro l2 h
    obtain ⟨q, w⟩ := kv
    rw [lookup_cons] at h
    by_cases hpq : p = q
    · rw [if_pos hpq] at h
      exact absurd h (by simp)
    · rw [if_neg hpq] at h
      rw [List.cons_append, lookup_cons, if_neg hpq]
      exact ih l2 h

lemma foldl_mapSet_false :
    ∀ (ps : List String) (l : List (String × Bool)),
      (∀ p ∈ ps, l.lookup p = none) → ps.Nodup →
      ps.foldl (fun acc p => mapSet acc p false) l
        = l ++ ps.map (fun p => (p, false)) := by
  intro ps
  induction ps with
  | nil => intro l _ _; simp
  | cons p ps ih =>
    intro l hl hnd
    rw [List.foldl_cons]
    have hnone := hl p (List.mem_cons_self p ps)
    have hset : mapSet l p false = l ++ [(p, false)] := by
      simp [mapSet, hnone]
    rw [hset]
    simp only [List.nodup_cons] at hnd
    rw [ih (l ++ [(p, false)]) ?_ hnd.2]
    · simp
    · intro q hq
      rw [lookup_append_of_none q l [(p, false)] (hl q (List.mem_cons_of_mem p hq)),
        lookup_cons, if_neg (fun he : q = p => hnd.1 (he ▸ hq))]
      rfl

lemma keys_all_false (ps : List String) :
    (ps.map (fun p => (p, false))).map Prod.fst = ps := by
  induction ps with
  | nil => rfl
  | cons p ps ih => simp [ih]

lemma trueCount_all_false (ps : List String) :
    trueCount (ps.map (fun p => (p, false))) = 0 := by
  induction ps with
  | nil => rfl
  | cons p ps ih => simp [trueCount_cons, ih]

lemma batchStart_pendingLoads (s : PreloadState) (ps : List String)
    (hnd : ps.Nodup) :
    (batchStart s ps).pendingLoads = ps.map (fun p => (p, false)) := by
  show ps.foldl (fun acc p => mapSet acc p false) [] = _
  rw [foldl_mapSet_false ps [] (fun p _ => rfl) hnd]
  simp

lemma fold_steps_inv (ps : List String) (hnd : ps.Nodup) :
    ∀ (steps : List (String × LoadOutcome)) (t : PreloadState),
      (∀ q ∈ steps, q.1 ∈ ps) →
      t.pendingLoads.map Prod.fst = ps →
      t.loadedAssets = trueCount t.pendingLoads →
      t.totalAssets = ps.length →
      (steps.foldl (fun u q => (loadModelPreload u q.1 q.2).1) t).pendingLoads.map
          Prod.fst = ps ∧
      (steps.foldl (fun u q => (loadModelPreload u q.1 q.2).1) t).loadedAssets
        = trueCount
            (steps.foldl (fun u q => (loadModelPreload u q.1 q.2).1) t).pendingLoads ∧
      (steps.foldl (fun u q => (loadModelPreload u q.1 q.2).1) t).totalAssets
        = ps.length := by
  intro steps
  induction steps with
  | nil => intro t _ h1 h2 h3; exact ⟨h1, h2, h3⟩
  | cons q steps ih =>
    intro t hq h1 h2 h3
    have hinv := loadModelPreload_inv t q.1 q.2
      (by rw [h1]; exact hq q (List.mem_cons_self q steps))
      (by rw [h1]; exact hnd) h2
    rw [List.foldl_cons]
    exact ih (loadModelPreload t q.1 q.2).1
      (fun q' hq' => hq q' (List.mem_cons_of_mem q hq'))
      (hinv.2.1.trans h1) hinv.1 (hinv.2.2.trans h3)

lemma setPosition_store_ne (h : Heap) (r r' : ℕ) (v : Vec3) (hne : r' ≠ r) :
    (h.setPosition r v).store r' = h.store r' := by
  simp [Heap.setPosition, hne]

lemma setScale_store_ne (h : Heap) (r r' : ℕ) (v : Vec3) (hne : r' ≠ r) :
    (h.setScale r v).store r' = h.store r' := by
  simp [Heap.setScale, hne]

lemma mem_mapSet {α : Type} (l : List (String × α)) (p : String) (v : α) :
    ∀ kv ∈ mapSet l p v, kv = (p, v) ∨ kv ∈ l := by
  intro kv hkv
  unfold mapSet at hkv
  by_cases h : (l.lookup p).isSome
  · rw [if_pos h] at hkv
    obtain ⟨kv0, hkv0, heq⟩ := List.mem_map.mp hkv
    by_cases h0 : kv0.1 = p
    · left
      rw [← heq, if_pos h0]
    · right
      rw [← heq, if_neg h0]
      exact hkv0
  · rw [if_neg h] at hkv
    rcases List.mem_append.mp hkv with h1 | h1
    · right; exact h1
    · left; simpa using h1

lemma amRun_sep : ∀ (es : List AMEvent) (s : AMState) (outs : List ℕ),
    outs.Nodup → (∀ r ∈ outs, r < s.heap.next) →
    (∀ kv ∈ s.modelCache, kv.2 < s.heap.next ∧ kv.2 ∉ outs) →
    ((outs ++ (amRun s es).2.filterMap id).Nodup ∧
      (∀ r ∈ outs ++ (amRun s es).2.filterMap id, r < (amRun s es).1.heap.next) ∧
      (∀ kv ∈ (amRun s es).1.modelCache,
        kv.2 < (amRun s es).1.heap.next ∧
        kv.2 ∉ outs ++ (amRun s es).2.filterMap id)) := by
  intro es
  induction es with
  | nil =>
    intro s outs hnd hbound hcache
    simp only [amRun, List.filterMap_nil, List.append_nil]
    exact ⟨hnd, hbound, hcache⟩
  | cons e es ih =>
    intro s outs hnd hbound hcache
    cases e with
    | call p =>
      cases hlook : s.modelCache.lookup p with
      | some r =>
        have hstep : amStep s (AMEvent.call p)
            = ({ s with heap := (s.heap.cloneObj r).1 }, some s.heap.next) := by
          simp [amStep, hlook]
          rfl
        have hrun : amRun s (AMEvent.call p :: es)
            = ((amRun { s with heap := (s.heap.cloneObj r).1 } es).1,
               some s.heap.next
                 :: (amRun { s with heap := (s.heap.cloneObj r).1 } es).2) := by
          simp only [amRun, hstep]
        have hnext : ({ s with heap := (s.heap.cloneObj r).1 } : AMState).heap.next
            = s.heap.next + 1 := rfl
        have hnd1 : (outs ++ [s.heap.next]).Nodup := by
          rw [List.nodup_append]
          refine ⟨hnd, List.nodup_singleton _, ?_⟩
          intro x hx
          simp only [List.mem_singleton]
          exact fun he => absurd (he ▸ hbound x hx) (lt_irrefl _)
        have hbound1 : ∀ x ∈ outs ++ [s.heap.next],
            x < ({ s with heap := (s.heap.cloneObj r).1 } : AMState).heap.next := by
          intro x hx
          rw [hnext]
          rcases List.mem_append.mp hx with hx | hx
          · exact Nat.lt_succ_of_lt (hbound x hx)
          · rw [List.mem_singleton.mp hx]
            exact Nat.lt_succ_self _
        have hcache1 : ∀ kv ∈ ({ s with heap := (s.heap.cloneObj r).1 } :
            AMState).modelCache,
            kv.2 < ({ s with heap := (s.heap.cloneObj r).1 } : AMState).heap.next ∧
            kv.2 ∉ outs ++ [s.heap.next] := by
          intro kv hkv
          obtain ⟨hlt, hnot⟩ := hcache kv hkv
          refine ⟨by rw [hnext]; exact Nat.lt_succ_of_lt hlt, ?_⟩
          intro hmem
          rcases List.mem_append.mp hmem with hm | hm
          · exact hnot hm
          · exact absurd (List.mem_singleton.mp hm ▸ hlt) (lt_irrefl _)
        have := ih { s with heap := (s.heap.cloneObj r).1 } (outs ++ [s.heap.next])
          hnd1 hbound1 hcache1
        rw [hrun]
        simp only [List.filterMap_cons, id] at this ⊢
        rw [show outs ++ s.heap.next :: (amRun { s with
              heap := (s.heap.cloneObj r).1 } es).2.filterMap id
            = (outs ++ [s.heap.next]) ++ (amRun { s with
              heap := (s.heap.cloneObj r).1 } es).2.filterMap id from by simp]
        exact this
      | none =>
        have hstep : amStep s (AMEvent.call p)
            = ({ s with decodeLog := s.decodeLog ++ [p] }, none) := by
          simp [amStep, hlook]
        have hrun : amRun s (AMEvent.call p :: es)
            = ((amRun { s with decodeLog := s.decodeLog ++ [p] } es).1,
               none :: (amRun { s with decodeLog := s.decodeLog ++ [p] } es).2) := by
          simp only [amRun, hstep]
        have := ih { s with decodeLog := s.decodeLog ++ [p] } outs hnd hbound hcache
        rw [hrun]
        simp only [List.filterMap_cons, id] at this ⊢
        exact this
    | complete p d =>
      have hstep : amStep s (AMEvent.complete p d)
          = ({ s with
                heap := ((s.heap.alloc d).1.cloneObj (s.heap.alloc d).2).1,
                modelCache := mapSet s.modelCache p (s.heap.next + 1) },
             some s.heap.next) := by
        simp [amStep]
        exact ⟨rfl, rfl⟩
      have hrun : amRun s (AMEvent.complete p d :: es)
          = ((amRun { s with
                heap := ((s.heap.alloc d).1.cloneObj (s.heap.alloc d).2).1,
                modelCache := mapSet s.modelCache p (s.heap.next + 1) } es).1,
             some s.heap.next
               :: (amRun { s with
                heap := ((s.heap.alloc d).1.cloneObj (s.heap.alloc d).2).1,
                modelCache := mapSet s.modelCache p (s.heap.next + 1) } es).2) := by
        simp only [amRun, hstep]
      have hnext : ({ s with
            heap := ((s.heap.alloc d).1.cloneObj (s.heap.alloc d).2).1,
            modelCache := mapSet s.modelCache p (s.heap.next + 1) } :
            AMState).heap.next = s.heap.next + 2 := rfl
      have hnd1 : (outs ++ [s.heap.next]).Nodup := by
        rw [List.nodup_append]
        refine ⟨hnd, List.nodup_singleton _, ?_⟩
        intro x hx
        simp only [List.mem_singleton]
        exact fun he => absurd (he ▸ hbound x hx) (lt_irrefl _)
      have hbound1 : ∀ x ∈ outs ++ [s.heap.next],
          x < s.heap.next + 2 := by
        intro x hx
        rcases List.mem_append.mp hx with hx | hx
        · have := hbound x hx; omega
        · rw [List.mem_singleton.mp hx]; omega
      have hcache1 : ∀ kv ∈ mapSet s.modelCache p (s.heap.next + 1),
          kv.2 < s.heap.next + 2 ∧ kv.2 ∉ outs ++ [s.heap.next] := by
        intro kv hkv
        rcases mem_mapSet s.modelCache p (s.heap.next + 1) kv hkv with h1 | h1
        · subst h1
          refine ⟨by omega, ?_⟩
          intro hmem
          rcases List.mem_append.mp hmem with hm | hm
          · have := hbound _ hm; omega
          · have := List.mem_singleton.mp hm; omega
        · obtain ⟨hlt, hnot⟩ := hcache kv h1
          refine ⟨by omega, ?_⟩
          intro hmem
          rcases List.mem_append.mp hmem with hm | hm
          · exact hnot hm
          · have := List.mem_singleton.mp hm; omega
      have := ih { s with
          heap := ((s.heap.alloc d).1.cloneObj (s.heap.alloc d).2).1,
          modelCache := mapSet s.modelCache p (s.heap.next + 1) }
        (outs ++ [s.heap.next]) hnd1 (by rw [show ({ s with
          heap := ((s.heap.alloc d).1.cloneObj (s.heap.alloc d).2).1,
          modelCache := mapSet s.modelCache p (s.heap.next + 1) } :
          AMState).heap.next = s.heap.next + 2 from rfl]; exact hbound1)
        (by
          intro kv hkv
          exact hcache1 kv hkv)
      rw [hrun]
      simp only [List.filterMap_cons, id] at this ⊢
      rw [show outs ++ s.heap.next :: (amRun { s with
            heap := ((s.heap.alloc d).1.cloneObj (s.heap.alloc d).2).1,
            modelCache := mapSet s.modelCache p (s.heap.next + 1) }
              es).2.filterMap id
          = (outs ++ [s.heap.next]) ++ (amRun { s with
            heap := ((s.heap.alloc d).1.cloneObj (s.heap.alloc d).2).1,
            modelCache := mapSet s.modelCache p (s.heap.next + 1) }
              es).2.filterMap id from by simp]
      exact this

/-! ### Claim theorems -/

/-- C1 counterexample: two `loadModel("tower.glb")` calls, each issued
before either load completes (the cache is only populated on completion),
both pass the cache-miss check and each starts its own underlying decode:
the decode log holds two entries for the path, not one as the claim
requires. -/
theorem loadModel_coalescing_cex :
    ((amRun emptyAM [AMEvent.call "tower.glb", AMEvent.call "tower.glb"]).1.decodeLog.count
        "tower.glb" = 2) ∧ (2 : ℕ) ≠ 1 := by
  constructor
  · rfl
  · decide

/-- C1 amended: `AssetManager` tracks no in-flight loads, so each of the
`n` concurrent `loadModel(p)` calls issued for an uncached `p` before any
of them completes starts its own underlying decode — the decode log grows
by exactly `n` entries for `p`; only a call arriving after a load has
completed and populated the cache is served from the cache and starts no
further decode. -/
theorem loadModel_concurrent_decode_per_call (s : AMState) (p : String)
    (n : ℕ) (d : ObjData) (h : s.modelCache.lookup p = none) :
    ((amRun s (List.replicate n (AMEvent.call p))).1.decodeLog.count p
        = s.decodeLog.count p + n) ∧
    ((amRun s (List.replicate n (AMEvent.call p)
        ++ [AMEvent.complete p d, AMEvent.call p])).1.decodeLog.count p
        = s.decodeLog.count p + n) := by
  obtain ⟨hc, hd⟩ := amRun_replicate_call p n s h
  have hcount : (amRun s (List.replicate n (AMEvent.call p))).1.decodeLog.count p
      = s.decodeLog.count p + n := by
    rw [hd]; simp [List.count_append]
  refine ⟨hcount, ?_⟩
  rw [amRun_append]
  set t := (amRun s (List.replicate n (AMEvent.call p))).1 with ht
  have hrun2 : (amRun t [AMEvent.complete p d, AMEvent.call p]).1
      = (amStep (amStep t (AMEvent.complete p d)).1 (AMEvent.call p)).1 := by
    simp [amRun]
  rw [hrun2]
  set u := (amStep t (AMEvent.complete p d)).1 with hu
  have hulog : u.decodeLog = t.decodeLog := by rw [hu]; simp [amStep]
  have hulook : u.modelCache.lookup p
      = some ((t.heap.alloc d).1.cloneObj (t.heap.alloc d).2).2 := by
    rw [hu]
    simp only [amStep]
    exact mapSet_lookup_self _ _ _
  have hcall : (amStep u (AMEvent.call p)).1.decodeLog = u.decodeLog := by
    simp [amStep, hulook]
  rw [hcall, hulog]
  exact hcount

/-- C1 amended witness: starting from the empty manager, two concurrent
calls for the uncached path `"a.glb"` start two decodes; a third call after
the completion starts none. -/
theorem loadModel_concurrent_decode_per_call_witness :
    (emptyAM.modelCache.lookup "a.glb" = none) ∧
    ((amRun emptyAM (List.replicate 2 (AMEvent.call "a.glb"))).1.decodeLog.count "a.glb"
        = emptyAM.decodeLog.count "a.glb" + 2) ∧
    ((amRun emptyAM (List.replicate 2 (AMEvent.call "a.glb")
        ++ [AMEvent.complete "a.glb" ⟨⟨0, 0, 0⟩, ⟨1, 1, 1⟩⟩,
            AMEvent.call "a.glb"])).1.decodeLog.count "a.glb"
        = emptyAM.decodeLog.count "a.glb" + 2) := by
  refine ⟨rfl, ?_⟩
  exact loadModel_concurrent_decode_per_call emptyAM "a.glb" 2
    ⟨⟨0, 0, 0⟩, ⟨1, 1, 1⟩⟩ rfl

/-- C2: the code violates the claim on the MTL-decode-failure case.  When
the HEAD probe reports the sidecar present (`response.ok` true) but the MTL
decode then fails, the rejection is swallowed by the outer catch without
resetting `hasMtl`, so the `!hasMtl` guard of the fallback branch is false
and a mesh with no assigned material keeps no material — while with an
absent sidecar or a probe error the fallback does fire as claimed.  This
contradicts the code's own comment "Apply default material if no MTL was
loaded". -/
theorem objModel_mtl_decode_failure_bug :
    (loadObjModelMeshes (ProbeResult.ok true) MtlDecode.failure
        [{ material := MaterialSlot.noMaterial }]
      = [{ material := MaterialSlot.noMaterial }]) ∧
    (∃ node ∈ loadObjModelMeshes (ProbeResult.ok true) MtlDecode.failure
        [{ material := MaterialSlot.noMaterial }],
      node.material = MaterialSlot.noMaterial) ∧
    (loadObjModelMeshes (ProbeResult.ok false) MtlDecode.failure
        [{ material := MaterialSlot.noMaterial }]
      = [{ material := MaterialSlot.single defaultObjMaterial }]) ∧
    (loadObjModelMeshes ProbeResult.fetchError MtlDecode.success
        [{ material := MaterialSlot.array [] }]
      = [{ material := MaterialSlot.single defaultObjMaterial }]) := by
  refine ⟨rfl, ⟨{ material := MaterialSlot.noMaterial }, ?_, rfl⟩, rfl, rfl⟩
  simp [loadObjModelMeshes, mtlPhase, applyDefaultMaterials]

/-- C6: on a non-empty sample sequence `calculateAverages` returns the
per-field arithmetic mean — `fps` and `frameTime` stay fractional, the
integer-scale fields are rounded with `Math.round` — and the memory fields
are present in the result iff at least one sample defined `memoryUsed`,
with a missing memory value contributing 0 to the sum that is divided by
the full sample count. -/
theorem calculateAverages_mean (ms : List PerformanceMetrics) (h : ms ≠ []) :
    (calculateAverages ms).fps
      = (ms.map PerformanceMetrics.fps).sum / (ms.length : ℚ) ∧
    (calculateAverages ms).frameTime
      = (ms.map PerformanceMetrics.frameTime).sum / (ms.length : ℚ) ∧
    (calculateAverages ms).triangles
      = jsRound ((ms.map PerformanceMetrics.triangles).sum / (ms.length : ℚ)) ∧
    (calculateAverages ms).textures
      = jsRound ((ms.map PerformanceMetrics.textures).sum / (ms.length : ℚ)) ∧
    (calculateAverages ms).shaders
      = jsRound ((ms.map PerformanceMetrics.shaders).sum / (ms.length : ℚ)) ∧
    (calculateAverages ms).calls
      = jsRound ((ms.map PerformanceMetrics.calls).sum / (ms.length : ℚ)) ∧
    (calculateAverages ms).geometries
      = jsRound ((ms.map PerformanceMetrics.geometries).sum / (ms.length : ℚ)) ∧
    (calculateAverages ms).meshes
      = jsRound ((ms.map PerformanceMetrics.meshes).sum / (ms.length : ℚ)) ∧
    (calculateAverages ms).lights
      = jsRound ((ms.map PerformanceMetrics.lights).sum / (ms.length : ℚ)) ∧
    ((calculateAverages ms).memoryUsed.isSome ↔ ∃ m ∈ ms, m.memoryUsed.isSome) ∧
    (calculateAverages ms).memoryUsed
      = (if ms.any (fun m => m.memoryUsed.isSome) then
          some (jsRound ((ms.map (fun m => m.memoryUsed.getD 0)).sum / (ms.length : ℚ)))
        else none) ∧
    (calculateAverages ms).memoryTotal
      = (if ms.any (fun m => m.memoryUsed.isSome) then
          some (jsRound ((ms.map (fun m => m.memoryTotal.getD 0)).sum / (ms.length : ℚ)))
        else none) := by
  rw [calculateAverages_pos ms h]
  by_cases hm : ms.any (fun m => m.memoryUsed.isSome)
  · simp only [if_pos hm, true_and, and_true]
    simp only [List.any_eq_true] at hm
    simpa using hm
  · simp only [if_neg hm, true_and, and_true]
    simp only [List.any_eq_true] at hm
    simpa using hm

/-- C6 witness: on three synthetic samples with fps 10, 20, 30 and triangle
counts 100, 101, 102 the mean fps is exactly 20 and the triangle average
rounds to 101; no sample defines memory, so the memory fields are absent. -/
theorem calculateAverages_mean_witness :
    ([sampleMetrics 10 100, sampleMetrics 20 101, sampleMetrics 30 102]
        ≠ ([] : List PerformanceMetrics)) ∧
    (calculateAverages
        [sampleMetrics 10 100, sampleMetrics 20 101, sampleMetrics 30 102]).fps = 20 ∧
    (calculateAverages
        [sampleMetrics 10 100, sampleMetrics 20 101, sampleMetrics 30 102]).triangles
      = 101 ∧
    (calculateAverages
        [sampleMetrics 10 100, sampleMetrics 20 101, sampleMetrics 30 102]).memoryUsed
      = none := by
  have H := calculateAverages_mean
    [sampleMetrics 10 100, sampleMetrics 20 101, sampleMetrics 30 102]
    (List.cons_ne_nil _ _)
  refine ⟨List.cons_ne_nil _ _, ?_, ?_, ?_⟩
  · rw [H.1]; norm_num [sampleMetrics]
  · rw [H.2.2.1]
    have h303 : ((List.map PerformanceMetrics.triangles
        [sampleMetrics 10 100, sampleMetrics 20 101, sampleMetrics 30 102]).sum
          / (([sampleMetrics 10 100, sampleMetrics 20 101,
              sampleMetrics 30 102].length : ℕ) : ℚ)) = 101 := by
      norm_num [sampleMetrics]
    rw [h303]
    rw [show jsRound 101 = ((⌊(101 : ℚ) + 1/2⌋ : ℤ) : ℚ) from rfl]
    norm_num
  · rw [H.2.2.2.2.2.2.2.2.2.2.1]
    simp [sampleMetrics]

/-- C4: `recordMetrics` is a no-op whenever the `stabilizing` flag is set,
so no sample polled during the stabilization window enters the test's
recorded sequence, and a test run with `waitForStabilization` on stores a
result whose sample sequence has length exactly `framesPerTest`, no matter
how many polls arrived during stabilization. -/
theorem stabilization_discard (opts : BenchmarkOptions)
    (cb : ℕ → PerformanceMetrics) (polls : List PerformanceMetrics)
    (test : PerformanceTest) (s : BenchState)
    (hw : opts.waitForStabilization = true)
    (hsetup : test.setup = Except.ok ())
    (htd : test.teardown = none ∨ test.teardown = some (Except.ok ()))
    (hrun : s.isRunning = true) :
    (∀ (t : BenchState) (m : PerformanceMetrics), t.stabilizing = true →
      recordMetrics t m = t) ∧
    ∃ r : BenchmarkResult,
      (runTest opts cb polls test s).2 = none ∧
      (runTest opts cb polls test s).1.results = s.results ++ [r] ∧
      r.metrics.length = opts.framesPerTest := by
  refine ⟨fun t m h => recordMetrics_stab t m h, ?_⟩
  obtain ⟨ct, cm, fc, res, run, stab⟩ := s
  have hrun1 : run = true := hrun
  subst hrun1
  obtain ⟨tname, tsetup, ttd⟩ := test
  have hsetup1 : tsetup = Except.ok () := hsetup
  subst hsetup1
  obtain ⟨ms, hlen, hres⟩ := collectFrames_spec opts.framesPerTest cb
    (opts.framesPerTest + 1) ⟨some tname, [], 0, res, true, false⟩ rfl rfl rfl
    (by show opts.framesPerTest - 0 ≤ opts.framesPerTest + 1; omega)
  have hres1 : collectFrames opts.framesPerTest cb (opts.framesPerTest + 1)
      ⟨some tname, [], 0, res, true, false⟩
      = ⟨some tname, ([] : List PerformanceMetrics) ++ ms,
         0 + (opts.framesPerTest - 0), res, true, false⟩ := hres
  have hlen1 : ms.length = opts.framesPerTest := by simpa using hlen
  rw [List.nil_append] at hres1
  have hfp : 0 + (opts.framesPerTest - 0) = opts.framesPerTest := by omega
  rw [hfp] at hres1
  refine ⟨⟨tname, ms, calculateAverages ms⟩, ?_⟩
  rcases htd with h | h
  · subst h
    have hrt : runTest opts cb polls ⟨tname, Except.ok (), none⟩
        ⟨ct, cm, fc, res, true, stab⟩
        = (⟨none, ms, opts.framesPerTest,
            res ++ [⟨tname, ms, calculateAverages ms⟩], true, false⟩, none) := by
      simp only [runTest, hw, if_true, stabilizationPhase_eq]
      rw [show ({ (⟨some tname, [], 0, res, true, stab⟩ : BenchState) with
            stabilizing := false } : BenchState)
          = ⟨some tname, [], 0, res, true, false⟩ from rfl, hres1]
    rw [hrt]
    exact ⟨rfl, rfl, hlen1⟩
  · subst h
    have hrt : runTest opts cb polls ⟨tname, Except.ok (), some (Except.ok ())⟩
        ⟨ct, cm, fc, res, true, stab⟩
        = (⟨none, ms, opts.framesPerTest,
            res ++ [⟨tname, ms, calculateAverages ms⟩], true, false⟩, none) := by
      simp only [runTest, hw, if_true, stabilizationPhase_eq]
      rw [show ({ (⟨some tname, [], 0, res, true, stab⟩ : BenchState) with
            stabilizing := false } : BenchState)
          = ⟨some tname, [], 0, res, true, false⟩ from rfl, hres1]
    rw [hrt]
    exact ⟨rfl, rfl, hlen1⟩

/-- C4 witness: a concrete run with `framesPerTest = 2` and three polls
arriving during the stabilization window records exactly 2 samples. -/
theorem stabilization_discard_witness :
    ((⟨2, true, 2000⟩ : BenchmarkOptions).waitForStabilization = true) ∧
    ((⟨"t", Except.ok (), none⟩ : PerformanceTest).setup = Except.ok ()) ∧
    initialBenchState.isRunning = false ∧
    ((∀ (t : BenchState) (m : PerformanceMetrics), t.stabilizing = true →
        recordMetrics t m = t) ∧
      ∃ r : BenchmarkResult,
        (runTest ⟨2, true, 2000⟩ (fun _ => sampleMetrics 1 1)
          [sampleMetrics 9 9, sampleMetrics 8 8, sampleMetrics 7 7]
          ⟨"t", Except.ok (), none⟩
          { initialBenchState with isRunning := true }).2 = none ∧
        (runTest ⟨2, true, 2000⟩ (fun _ => sampleMetrics 1 1)
          [sampleMetrics 9 9, sampleMetrics 8 8, sampleMetrics 7 7]
          ⟨"t", Except.ok (), none⟩
          { initialBenchState with isRunning := true }).1.results
          = ({ initialBenchState with isRunning := true } : BenchState).results ++ [r] ∧
        r.metrics.length = (⟨2, true, 2000⟩ : BenchmarkOptions).framesPerTest) :=
  ⟨rfl, rfl, rfl,
    stabilization_discard ⟨2, true, 2000⟩ (fun _ => sampleMetrics 1 1)
      [sampleMetrics 9 9, sampleMetrics 8 8, sampleMetrics 7 7]
      ⟨"t", Except.ok (), none⟩ { initialBenchState with isRunning := true }
      rfl rfl (Or.inl rfl) rfl⟩

/-- C9: with `framesPerTest = 0` a test still completes (setup and teardown
permitting): no sample is collected, the stored result carries an empty
sample sequence, and `calculateAverages` on the empty sequence
short-circuits to the record with every numeric field 0 instead of dividing
by the sample count. -/
theorem runTest_zero_frames (opts : BenchmarkOptions) (cb : ℕ → PerformanceMetrics)
    (polls : List PerformanceMetrics) (test : PerformanceTest) (s : BenchState)
    (hf : opts.framesPerTest = 0) (hsetup : test.setup = Except.ok ())
    (htd : test.teardown = none ∨ test.teardown = some (Except.ok ())) :
    (runTest opts cb polls test s).2 = none ∧
    (runTest opts cb polls test s).1.results
      = s.results ++ [{ name := test.name, metrics := [],
                        averages := calculateAverages [] }] ∧
    calculateAverages []
      = { fps := 0, frameTime := 0, triangles := 0, textures := 0, shaders := 0,
          calls := 0, geometries := 0, meshes := 0, lights := 0,
          memoryUsed := none, memoryTotal := none } := by
  refine ?_
  rcases htd with htd | htd <;> by_cases hw : opts.waitForStabilization <;>
    simp [runTest, hsetup, htd, hw, hf, stabilizationPhase_eq, collectFrames,
      calculateAverages]

/-- C9 witness: a concrete test with `framesPerTest = 0` completes with an
empty sample list and the all-zero averages record. -/
theorem runTest_zero_frames_witness :
    ((⟨0, true, 2000⟩ : BenchmarkOptions).framesPerTest = 0) ∧
    ((⟨"t", Except.ok (), none⟩ : PerformanceTest).setup = Except.ok ()) ∧
    ((runTest ⟨0, true, 2000⟩ (fun _ => sampleMetrics 1 1) [sampleMetrics 9 9]
        ⟨"t", Except.ok (), none⟩ initialBenchState).2 = none ∧
      (runTest ⟨0, true, 2000⟩ (fun _ => sampleMetrics 1 1) [sampleMetrics 9 9]
          ⟨"t", Except.ok (), none⟩ initialBenchState).1.results
        = initialBenchState.results ++
            [{ name := "t", metrics := [], averages := calculateAverages [] }] ∧
      calculateAverages []
        = { fps := 0, frameTime := 0, triangles := 0, textures := 0, shaders := 0,
            calls := 0, geometries := 0, meshes := 0, lights := 0,
            memoryUsed := none, memoryTotal := none }) :=
  ⟨rfl, rfl,
    runTest_zero_frames ⟨0, true, 2000⟩ (fun _ => sampleMetrics 1 1)
      [sampleMetrics 9 9] ⟨"t", Except.ok (), none⟩ initialBenchState rfl rfl
      (Or.inl rfl)⟩

/-- C7: a setup rejection propagates out of `runAll` (the schedule has no
catch), no later-registered test executes (the result does not depend on the
tests after the failing one), and the results collected for the earlier
tests stay on the instance. -/
theorem runAll_setup_failure_propagates (opts : BenchmarkOptions)
    (cb : ℕ → ℕ → PerformanceMetrics) (polls : ℕ → List PerformanceMetrics)
    (pre post : List PerformanceTest) (fail : PerformanceTest) (e : String)
    (s : BenchState)
    (hpre : ∀ t ∈ pre, t.setup = Except.ok () ∧
      (t.teardown = none ∨ t.teardown = some (Except.ok ())))
    (hfail : fail.setup = Except.error e) (hrun : s.isRunning = false) :
    (runAll opts cb polls (pre ++ fail :: post) s).2 = Except.error e ∧
    (runAll opts cb polls (pre ++ fail :: post) s).1.results.length = pre.length ∧
    (runAll opts cb polls (pre ++ fail :: post) s).1.isRunning = true ∧
    (∀ post', runAll opts cb polls (pre ++ fail :: post') s
        = runAll opts cb polls (pre ++ fail :: post) s) := by
  have habort := runTests_abort opts cb polls fail e hfail post pre 0
    { s with isRunning := true, results := [] } hpre
  rcases hrt : runTests opts cb polls (pre ++ fail :: post) 0
      { s with isRunning := true, results := [] } with ⟨s2, snd⟩
  rw [hrt] at habort
  have hsnd : snd = some e := habort.1
  subst hsnd
  have hlen : s2.results.length = pre.length := by
    have h := habort.2.1
    simpa using h
  have hrun2 : s2.isRunning = true := by
    have h := runTests_isRunning opts cb polls (pre ++ fail :: post) 0
      { s with isRunning := true, results := [] }
    rw [hrt] at h
    exact h
  have hall : ∀ q, runTests opts cb polls (pre ++ fail :: q) 0
        { s with isRunning := true, results := [] } = (s2, some e) →
      runAll opts cb polls (pre ++ fail :: q) s = (s2, Except.error e) := by
    intro q hq
    have hbody : runAll opts cb polls (pre ++ fail :: q) s
        = (match runTests opts cb polls (pre ++ fail :: q) 0
            { s with isRunning := true, results := [] } with
          | (s2, none) => ({ s2 with isRunning := false }, Except.ok s2.results)
          | (s2, some e) => (s2, Except.error e)) := by
      simp [runAll, hrun]
    rw [hbody, hq]
  have hmain := hall post hrt
  refine ⟨by rw [hmain], by rw [hmain]; exact hlen, by rw [hmain]; exact hrun2, ?_⟩
  intro post'
  rw [hmain, hall post' (by rw [habort.2.2 post'])]

/-- C7 witness: one succeeding test followed by a test whose setup rejects
with "boom" and one more registered test; `runAll` surfaces the error, keeps
exactly the one earlier result, and ignores the later test. -/
theorem runAll_setup_failure_propagates_witness :
    ((⟨"bad", Except.error "boom", none⟩ : PerformanceTest).setup
        = Except.error "boom") ∧
    initialBenchState.isRunning = false ∧
    ((runAll ⟨1, false, 0⟩ (fun _ _ => sampleMetrics 1 1) (fun _ => [])
        ([⟨"good", Except.ok (), none⟩] ++ ⟨"bad", Except.error "boom", none⟩ ::
          [⟨"later", Except.ok (), none⟩]) initialBenchState).2
        = Except.error "boom" ∧
      (runAll ⟨1, false, 0⟩ (fun _ _ => sampleMetrics 1 1) (fun _ => [])
        ([⟨"good", Except.ok (), none⟩] ++ ⟨"bad", Except.error "boom", none⟩ ::
          [⟨"later", Except.ok (), none⟩]) initialBenchState).1.results.length
        = [(⟨"good", Except.ok (), none⟩ : PerformanceTest)].length ∧
      (runAll ⟨1, false, 0⟩ (fun _ _ => sampleMetrics 1 1) (fun _ => [])
        ([⟨"good", Except.ok (), none⟩] ++ ⟨"bad", Except.error "boom", none⟩ ::
          [⟨"later", Except.ok (), none⟩]) initialBenchState).1.isRunning = true ∧
      (∀ post', runAll ⟨1, false, 0⟩ (fun _ _ => sampleMetrics 1 1) (fun _ => [])
          ([⟨"good", Except.ok (), none⟩] ++ ⟨"bad", Except.error "boom", none⟩ ::
            post') initialBenchState
        = runAll ⟨1, false, 0⟩ (fun _ _ => sampleMetrics 1 1) (fun _ => [])
          ([⟨"good", Except.ok (), none⟩] ++ ⟨"bad", Except.error "boom", none⟩ ::
            [⟨"later", Except.ok (), none⟩]) initialBenchState)) :=
  ⟨rfl, rfl,
    runAll_setup_failure_propagates ⟨1, false, 0⟩ (fun _ _ => sampleMetrics 1 1)
      (fun _ => []) [⟨"good", Except.ok (), none⟩] [⟨"later", Except.ok (), none⟩]
      ⟨"bad", Except.error "boom", none⟩ "boom" initialBenchState
      (by
        intro t ht
        rcases List.mem_singleton.mp ht with rfl
        exact ⟨rfl, Or.inl rfl⟩)
      rfl rfl⟩

/-- C10: `runAll` on an already-running instance executes nothing and
returns the current results; and since `isRunning` is cleared only on the
success path, a run aborted by a setup/teardown rejection leaves the flag
set, so every later `runAll` call — with any options, callbacks or test
list — immediately returns the stale partial results without running a
test. -/
theorem runAll_reentrancy_latch (opts : BenchmarkOptions)
    (cb : ℕ → ℕ → PerformanceMetrics) (polls : ℕ → List PerformanceMetrics)
    (tests : List PerformanceTest) (s : BenchState) :
    (s.isRunning = true → runAll opts cb polls tests s = (s, Except.ok s.results)) ∧
    (∀ (e : String) (s1 : BenchState),
      runAll opts cb polls tests s = (s1, Except.error e) →
      s1.isRunning = true ∧
      ∀ (opts1 : BenchmarkOptions) (cb1 : ℕ → ℕ → PerformanceMetrics)
        (polls1 : ℕ → List PerformanceMetrics) (tests1 : List PerformanceTest),
        runAll opts1 cb1 polls1 tests1 s1 = (s1, Except.ok s1.results)) := by
  constructor
  · intro h
    simp [runAll, h]
  · intro e s1 herr
    by_cases hrun : s.isRunning
    · rw [show runAll opts cb polls tests s = (s, Except.ok s.results) from by
        simp [runAll, hrun]] at herr
      exact absurd (congrArg Prod.snd herr) (by simp)
    · have hrun' : s.isRunning = false := by
        simpa using hrun
      have hbody : runAll opts cb polls tests s
          = (match runTests opts cb polls tests 0
              { s with isRunning := true, results := [] } with
            | (s2, none) => ({ s2 with isRunning := false }, Except.ok s2.results)
            | (s2, some e) => (s2, Except.error e)) := by
        simp [runAll, hrun']
      rcases hrt : runTests opts cb polls tests 0
          { s with isRunning := true, results := [] } with ⟨s2, snd⟩
      rw [hbody, hrt] at herr
      cases snd with
      | none => exact absurd (congrArg Prod.snd herr) (by simp)
      | some e1 =>
        have hs2 : s2 = s1 := congrArg Prod.fst herr
        subst hs2
        have hrun2 : s2.isRunning = true := by
          have h := runTests_isRunning opts cb polls tests 0
            { s with isRunning := true, results := [] }
          rw [hrt] at h
          exact h
        exact ⟨hrun2, fun opts1 cb1 polls1 tests1 => by simp [runAll, hrun2]⟩

/-- C10 witness: a benchmark whose single test's setup rejects leaves
`isRunning` latched, and a second `runAll` on the same state returns the
stale (empty) results without running anything; a state that is already
running is likewise returned untouched. -/
theorem runAll_reentrancy_latch_witness :
    (runAll ⟨1, false, 0⟩ (fun _ _ => sampleMetrics 1 1) (fun _ => [])
        [⟨"bad", Except.error "boom", none⟩] initialBenchState
      = (⟨some "bad", [], 0, [], true, false⟩, Except.error "boom")) ∧
    ((⟨some "bad", [], 0, [], true, false⟩ : BenchState).isRunning = true ∧
      runAll ⟨7, true, 9⟩ (fun _ _ => sampleMetrics 2 2) (fun _ => [])
        [⟨"other", Except.ok (), none⟩] ⟨some "bad", [], 0, [], true, false⟩
        = (⟨some "bad", [], 0, [], true, false⟩,
           Except.ok (⟨some "bad", [], 0, [], true, false⟩ : BenchState).results)) :=
  ⟨rfl,
    ((runAll_reentrancy_latch ⟨1, false, 0⟩ (fun _ _ => sampleMetrics 1 1)
        (fun _ => []) [⟨"bad", Except.error "boom", none⟩] initialBenchState).2
      "boom" ⟨some "bad", [], 0, [], true, false⟩ rfl).imp_right
      (fun h => h ⟨7, true, 9⟩ (fun _ _ => sampleMetrics 2 2) (fun _ => [])
        [⟨"other", Except.ok (), none⟩])⟩

/-- C8: throughout a batch over distinct paths, every terminal event
increments the loaded counter at most once per path (guarded by the pending
flag), so `loadedAssets` never exceeds `totalAssets`; hence
`getOverallProgress` stays in `[0, 1]`, and with no batch active
(`totalAssets = 0`) it is exactly 1. -/
theorem preload_progress_invariant (s : PreloadState) (ps : List String)
    (hnd : ps.Nodup) (steps : List (String × LoadOutcome))
    (hsteps : ∀ q ∈ steps, q.1 ∈ ps) :
    (steps.foldl (fun u q => (loadModelPreload u q.1 q.2).1)
        (batchStart s ps)).loadedAssets
      ≤ (steps.foldl (fun u q => (loadModelPreload u q.1 q.2).1)
          (batchStart s ps)).totalAssets ∧
    0 ≤ getOverallProgress (steps.foldl (fun u q => (loadModelPreload u q.1 q.2).1)
        (batchStart s ps)) ∧
    getOverallProgress (steps.foldl (fun u q => (loadModelPreload u q.1 q.2).1)
        (batchStart s ps)) ≤ 1 ∧
    ((steps.foldl (fun u q => (loadModelPreload u q.1 q.2).1)
        (batchStart s ps)).totalAssets = 0 →
      getOverallProgress (steps.foldl (fun u q => (loadModelPreload u q.1 q.2).1)
        (batchStart s ps)) = 1) ∧
    (∀ t : PreloadState, t.totalAssets = 0 → getOverallProgress t = 1) := by
  have hpend := batchStart_pendingLoads s ps hnd
  have h1 : (batchStart s ps).pendingLoads.map Prod.fst = ps := by
    rw [hpend]; exact keys_all_false ps
  have h2 : (batchStart s ps).loadedAssets
      = trueCount (batchStart s ps).pendingLoads := by
    rw [hpend, trueCount_all_false]; rfl
  obtain ⟨hk, hl, ht⟩ := fold_steps_inv ps hnd steps (batchStart s ps) hsteps h1 h2 rfl
  have hzero : ∀ t : PreloadState, t.totalAssets = 0 → getOverallProgress t = 1 := by
    intro t h0
    simp [getOverallProgress, h0]
  have hle : (steps.foldl (fun u q => (loadModelPreload u q.1 q.2).1)
      (batchStart s ps)).loadedAssets
      ≤ (steps.foldl (fun u q => (loadModelPreload u q.1 q.2).1)
          (batchStart s ps)).totalAssets := by
    rw [hl, ht]
    calc trueCount (steps.foldl (fun u q => (loadModelPreload u q.1 q.2).1)
            (batchStart s ps)).pendingLoads
        ≤ (steps.foldl (fun u q => (loadModelPreload u q.1 q.2).1)
            (batchStart s ps)).pendingLoads.length := List.length_filter_le _ _
      _ = ((steps.foldl (fun u q => (loadModelPreload u q.1 q.2).1)
            (batchStart s ps)).pendingLoads.map Prod.fst).length := by
          rw [List.length_map]
      _ = ps.length := by rw [hk]
  refine ⟨hle, ?_, ?_, fun h0 => hzero _ h0, hzero⟩
  · by_cases h0 : (steps.foldl (fun u q => (loadModelPreload u q.1 q.2).1)
        (batchStart s ps)).totalAssets = 0
    · rw [hzero _ h0]
      norm_num
    · simp only [getOverallProgress, h0, if_false]
      exact div_nonneg (Nat.cast_nonneg _) (Nat.cast_nonneg _)
  · by_cases h0 : (steps.foldl (fun u q => (loadModelPreload u q.1 q.2).1)
        (batchStart s ps)).totalAssets = 0
    · rw [hzero _ h0]
    · simp only [getOverallProgress, h0, if_false]
      rw [div_le_one (by exact_mod_cast Nat.pos_of_ne_zero h0)]
      exact_mod_cast hle

/-- C8 witness: batch over the distinct paths "a", "b" with a duplicate
terminal event for "a" and a failing "b": the counter stays at or below the
total and the progress value is within bounds. -/
theorem preload_progress_invariant_witness :
    (["a", "b"] : List String).Nodup ∧
    (∀ q ∈ ([("a", LoadOutcome.success), ("a", LoadOutcome.success),
        ("b", LoadOutcome.failure)] : List (String × LoadOutcome)),
      q.1 ∈ (["a", "b"] : List String)) ∧
    (([("a", LoadOutcome.success), ("a", LoadOutcome.success),
        ("b", LoadOutcome.failure)].foldl
          (fun u q => (loadModelPreload u q.1 q.2).1)
          (batchStart ⟨[], 0, 0, [], []⟩ ["a", "b"])).loadedAssets
      ≤ ([("a", LoadOutcome.success), ("a", LoadOutcome.success),
          ("b", LoadOutcome.failure)].foldl
            (fun u q => (loadModelPreload u q.1 q.2).1)
            (batchStart ⟨[], 0, 0, [], []⟩ ["a", "b"])).totalAssets ∧
      0 ≤ getOverallProgress ([("a", LoadOutcome.success), ("a", LoadOutcome.success),
          ("b", LoadOutcome.failure)].foldl
            (fun u q => (loadModelPreload u q.1 q.2).1)
            (batchStart ⟨[], 0, 0, [], []⟩ ["a", "b"])) ∧
      getOverallProgress ([("a", LoadOutcome.success), ("a", LoadOutcome.success),
          ("b", LoadOutcome.failure)].foldl
            (fun u q => (loadModelPreload u q.1 q.2).1)
            (batchStart ⟨[], 0, 0, [], []⟩ ["a", "b"])) ≤ 1 ∧
      (([("a", LoadOutcome.success), ("a", LoadOutcome.success),
          ("b", LoadOutcome.failure)].foldl
            (fun u q => (loadModelPreload u q.1 q.2).1)
            (batchStart ⟨[], 0, 0, [], []⟩ ["a", "b"])).totalAssets = 0 →
        getOverallProgress ([("a", LoadOutcome.success), ("a", LoadOutcome.success),
            ("b", LoadOutcome.failure)].foldl
              (fun u q => (loadModelPreload u q.1 q.2).1)
              (batchStart ⟨[], 0, 0, [], []⟩ ["a", "b"])) = 1) ∧
      (∀ t : PreloadState, t.totalAssets = 0 → getOverallProgress t = 1)) :=
  ⟨by decide, by decide,
    preload_progress_invariant ⟨[], 0, 0, [], []⟩ ["a", "b"] (by decide)
      [("a", LoadOutcome.success), ("a", LoadOutcome.success),
        ("b", LoadOutcome.failure)] (by decide)⟩

/-- C3: a batch of three distinct paths where `a` is already cached, `b`'s
decode succeeds and `c`'s decode fails still resolves (the fold is total
and returns a value for every path, `null` for the failure); each path
increments the loaded counter exactly once (its pending flag ends `true`
and the counter ends at 3 = one per path), and after the three per-path
terminal events one final synthetic event is emitted with asset `"all"`,
`isComplete = true` and `loaded = total = 3`. -/
theorem preloadAssets_mixed_batch (s : PreloadState) (a b c : String)
    (outcomes : String → LoadOutcome)
    (hab : a ≠ b) (hac : a ≠ c) (hbc : b ≠ c)
    (ha : a ∈ s.cachedPaths) (hb : b ∉ s.cachedPaths) (hc : c ∉ s.cachedPaths)
    (hob : outcomes b = LoadOutcome.success)
    (hoc : outcomes c = LoadOutcome.failure) :
    (preloadAssets s [a, b, c] outcomes).2 = [true, true, false] ∧
    (preloadAssets s [a, b, c] outcomes).1.loadedAssets = 3 ∧
    (preloadAssets s [a, b, c] outcomes).1.totalAssets = 3 ∧
    (preloadAssets s [a, b, c] outcomes).1.pendingLoads
      = [(a, true), (b, true), (c, true)] ∧
    (preloadAssets s [a, b, c] outcomes).1.events.getLast?
      = some { asset := "all", progress := 100, loaded := 3, total := 3,
               isComplete := true } := by
  obtain ⟨cached, tot, load, pend, evs⟩ := s
  have ha1 : a ∈ cached := ha
  have hb1 : b ∉ cached := hb
  have hc1 : c ∉ cached := hc
  have hba : ¬ (b = a) := fun h => hab h.symm
  have hca : ¬ (c = a) := fun h => hac h.symm
  have hcb : ¬ (c = b) := fun h => hbc h.symm
  simp [preloadAssets, batchStart, loadModelPreload, completePreload, mapSet,
    lookup_cons, ha1, hb1, hc1, hob, hoc, hab, hac, hbc, hba, hca, hcb,
    List.getLast?_concat]

/-- C3 witness: concrete batch ["a", "b", "c"] with "a" cached, "b"
succeeding and "c" failing. -/
theorem preloadAssets_mixed_batch_witness :
    (("a" : String) ≠ "b" ∧ ("a" : String) ≠ "c" ∧ ("b" : String) ≠ "c" ∧
      "a" ∈ (⟨["a"], 0, 0, [], []⟩ : PreloadState).cachedPaths ∧
      "b" ∉ (⟨["a"], 0, 0, [], []⟩ : PreloadState).cachedPaths ∧
      "c" ∉ (⟨["a"], 0, 0, [], []⟩ : PreloadState).cachedPaths) ∧
    (preloadAssets ⟨["a"], 0, 0, [], []⟩ ["a", "b", "c"]
        (fun p => if p = "c" then LoadOutcome.failure else LoadOutcome.success)).2
      = [true, true, false] ∧
    (preloadAssets ⟨["a"], 0, 0, [], []⟩ ["a", "b", "c"]
        (fun p => if p = "c" then LoadOutcome.failure else LoadOutcome.success)).1.loadedAssets
      = 3 ∧
    (preloadAssets ⟨["a"], 0, 0, [], []⟩ ["a", "b", "c"]
        (fun p => if p = "c" then LoadOutcome.failure else LoadOutcome.success)).1.totalAssets
      = 3 ∧
    (preloadAssets ⟨["a"], 0, 0, [], []⟩ ["a", "b", "c"]
        (fun p => if p = "c" then LoadOutcome.failure else LoadOutcome.success)).1.pendingLoads
      = [("a", true), ("b", true), ("c", true)] ∧
    ((preloadAssets ⟨["a"], 0, 0, [], []⟩ ["a", "b", "c"]
        (fun p => if p = "c" then LoadOutcome.failure else LoadOutcome.success)).1.events).getLast?
      = some { asset := "all", progress := 100, loaded := 3, total := 3,
               isComplete := true } :=
  ⟨⟨by decide, by decide, by decide, by decide, by decide, by decide⟩,
    preloadAssets_mixed_batch ⟨["a"], 0, 0, [], []⟩ "a" "b" "c"
      (fun p => if p = "c" then LoadOutcome.failure else LoadOutcome.success)
      (by decide) (by decide) (by decide) (by decide) (by decide) (by decide)
      rfl rfl⟩

/-- C5: over any execution of the asset manager from the empty state, the
objects resolved by `loadModel` calls are pairwise distinct heap objects,
all distinct from every cached entry (the first caller receives the decoded
original while the cache keeps its own clone; later callers receive fresh
clones of the cached object); and mutating the position or scale of one
object leaves the stored data — hence the position — of every other object
untouched. -/
theorem loadModel_clone_independence (es : List AMEvent) :
    ((amRun emptyAM es).2.filterMap id).Nodup ∧
    (∀ r ∈ (amRun emptyAM es).2.filterMap id,
      ∀ kv ∈ (amRun emptyAM es).1.modelCache, r ≠ kv.2) ∧
    (∀ (r r' : ℕ), r ≠ r' → ∀ v : Vec3,
      ((amRun emptyAM es).1.heap.setPosition r v).store r'
          = (amRun emptyAM es).1.heap.store r' ∧
      ((amRun emptyAM es).1.heap.setScale r v).store r'
          = (amRun emptyAM es).1.heap.store r') := by
  have hsep := amRun_sep es emptyAM [] List.nodup_nil
    (by intro r hr; simp at hr) (by intro kv hkv; simp [emptyAM] at hkv)
  simp only [List.nil_append] at hsep
  refine ⟨hsep.1, ?_, ?_⟩
  · intro r hr kv hkv he
    exact (hsep.2.2 kv hkv).2 (he ▸ hr)
  · intro r r' hne v
    exact ⟨setPosition_store_ne _ r r' v (fun h => hne h.symm),
           setScale_store_ne _ r r' v (fun h => hne h.symm)⟩

/-- C5 witness: decode "m.glb" once, then load it again from the cache; the
two resolved objects (addresses 0 and 2) and the cached clone (address 1)
are pairwise distinct, and mutating object 0's position leaves object 2's
stored data unchanged. -/
theorem loadModel_clone_independence_witness :
    ((amRun emptyAM [AMEvent.call "m.glb",
        AMEvent.complete "m.glb" ⟨⟨0, 0, 0⟩, ⟨1, 1, 1⟩⟩,
        AMEvent.call "m.glb"]).2.filterMap id).Nodup ∧
    ((amRun emptyAM [AMEvent.call "m.glb",
        AMEvent.complete "m.glb" ⟨⟨0, 0, 0⟩, ⟨1, 1, 1⟩⟩,
        AMEvent.call "m.glb"]).2.filterMap id = [0, 2]) ∧
    ((amRun emptyAM [AMEvent.call "m.glb",
        AMEvent.complete "m.glb" ⟨⟨0, 0, 0⟩, ⟨1, 1, 1⟩⟩,
        AMEvent.call "m.glb"]).1.modelCache = [("m.glb", 1)]) ∧
    (((amRun emptyAM [AMEvent.call "m.glb",
        AMEvent.complete "m.glb" ⟨⟨0, 0, 0⟩, ⟨1, 1, 1⟩⟩,
        AMEvent.call "m.glb"]).1.heap.setPosition 0 ⟨5, 6, 7⟩).store 2
      = (amRun emptyAM [AMEvent.call "m.glb",
          AMEvent.complete "m.glb" ⟨⟨0, 0, 0⟩, ⟨1, 1, 1⟩⟩,
          AMEvent.call "m.glb"]).1.heap.store 2) :=
  ⟨(loadModel_clone_independence [AMEvent.call "m.glb",
      AMEvent.complete "m.glb" ⟨⟨0, 0, 0⟩, ⟨1, 1, 1⟩⟩,
      AMEvent.call "m.glb"]).1,
    by decide, by decide,
    ((loadModel_clone_independence [AMEvent.call "m.glb",
        AMEvent.complete "m.glb" ⟨⟨0, 0, 0⟩, ⟨1, 1, 1⟩⟩,
        AMEvent.call "m.glb"]).2.2 0 2 (by decide) ⟨5, 6, 7⟩).1⟩

end CyberCity
